import Mathlib

/-!
Shallow embedding of the flakiness-detective detection pipeline
(packages/core: pattern extraction, validation, DBSCAN post-processing,
embedding orchestration, and the `detect` entry point), translated from the
TypeScript sources.  Modelling conventions:

* JavaScript numbers that can be NaN or infinite (embedding components) are
  modelled by `JSNum`; numbers that the code only ever treats as real values
  are modelled by `Int` (timestamps in epoch milliseconds, line numbers,
  timeouts) or `Rat` (configuration values compared against fractions,
  averages produced by division).
* JavaScript `undefined`-able fields are `Option`s; JS truthiness (`if (!x)`,
  `x || y`) is modelled by the `jsOr*` / `*Truthy` helpers (0 and the empty
  string are falsy).
* The regular expressions of the pattern extractor are compiled by hand into
  character-list scanners with JS leftmost-match semantics (`scanFirst`) and,
  for a greedy `.*` before the capture, rightmost-continuation semantics
  (`scanLast`).  `\s` is modelled by ASCII whitespace, `\w` by `[A-Za-z0-9_]`.
* The external `density-clustering` library call `new DBSCAN().run(...)` is an
  effectful foreign call; `clusterFailures` takes the function it denotes as
  an explicit parameter `run`, and the current calendar date used for cluster
  ids (`new Date().toISOString().slice(0, 10)`) as a parameter `today`.
-/

namespace FlakyDetective

/-- A JavaScript number as seen by the embedding validator: a finite rational,
NaN, or an infinity. -/
inductive JSNum where
  | finite (q : Rat)
  | nan
  | posInf
  | negInf
deriving DecidableEq, Repr

/-- `Number.isNaN` on a `JSNum`. -/
def JSNum.isNaN : JSNum → Bool
  | .nan => true
  | _ => false

/-- `Number.isFinite` on a `JSNum` (used only to state claims; the source code
never calls it). -/
def JSNum.isFiniteNum : JSNum → Bool
  | .finite _ => true
  | _ => false

/-- `TestFailureMetadata` from packages/core types: every field optional. -/
structure TestFailureMetadata where
  errorSnippet : Option String := none
  lineNumber : Option Int := none
  projectName : Option String := none
  suiteName : Option String := none
  locator : Option String := none
  matcher : Option String := none
  timeout : Option Int := none
  duration : Option Int := none
  framework : Option String := none
  actualValue : Option String := none
  expectedValue : Option String := none
  runId : Option String := none
  reportLink : Option String := none
deriving DecidableEq, Repr

/-- The empty metadata object `{}` produced by `failure.metadata || {}`. -/
def emptyMetadata : TestFailureMetadata := {}

/-- `TestFailure` from packages/core types.  `timestamp` is the epoch-millisecond
value of the (valid) `Date`. -/
structure TestFailure where
  id : String
  testTitle : String
  testFilePath : String
  errorMessage : String
  errorStack : Option String := none
  timestamp : Int
  metadata : Option TestFailureMetadata := none
deriving DecidableEq, Repr

/-- `EmbeddedFailure`: a `TestFailure` extended with its embedding vector. -/
structure EmbeddedFailure extends TestFailure where
  embedding : List JSNum
deriving DecidableEq, Repr

/-- JS truthiness of an optional string (`undefined` and `""` are falsy). -/
def strOptTruthy : Option String → Bool
  | some s => s ≠ ""
  | none => false

/-- JS truthiness of an optional number (`undefined` and `0` are falsy). -/
def intOptTruthy : Option Int → Bool
  | some n => n ≠ 0
  | none => false

/-- JS `a || b` for optional strings. -/
def jsOrStr (a b : Option String) : Option String :=
  if strOptTruthy a then a else b

/-- JS `a || b` for optional numbers. -/
def jsOrInt (a b : Option Int) : Option Int :=
  if intOptTruthy a then a else b

/-! ### Hand-compiled regular-expression scanners -/

/-- Leftmost-match driver: try the matcher at every start position, left to
right, and return its first success (JS `String.prototype.match` semantics for
a pattern that consumes at least one character). -/
def scanFirst (f : List Char → Option α) : List Char → Option α
  | [] => none
  | c :: rest =>
    match f (c :: rest) with
    | some r => some r
    | none => scanFirst f rest

/-- Rightmost-continuation driver for a greedy `.*` before the tail pattern:
try the tail matcher at every position, rightmost first. -/
def scanLast (f : List Char → Option α) : List Char → Option α
  | [] => f []
  | c :: rest =>
    match scanLast f rest with
    | some r => some r
    | none => f (c :: rest)

/-- Case-insensitive literal-prefix test (for `/.../i` regexes). -/
def ciPrefix (pat : String) : List Char → Bool :=
  fun l => (pat.data.map Char.toLower).isPrefixOf (l.map Char.toLower |>.take pat.data.length)

/-- The single-quote character, written numerically. -/
def singleQuote : Char := Char.ofNat 39

/-- A character matched by the regex class `["']`. -/
def isQuoteChar (c : Char) : Bool := c = '"' || c = singleQuote

/-- A character matched by `\w` (`[A-Za-z0-9_]`). -/
def isWordChar (c : Char) : Bool := c.isAlphanum || c = '_'

/-- A character matched by `\s` (modelled by ASCII whitespace). -/
def isWsChar (c : Char) : Bool := c.isWhitespace

/-- `parseInt(digits, 10)` for a run of decimal digits. -/
def natOfDigits (ds : List Char) : Nat :=
  ds.foldl (fun acc c => acc * 10 + (c.toNat - '0'.toNat)) 0

/-- Tail matcher for `/\/runs\/(\d+)/`: a literal `/runs/` followed by at least
one digit; the capture is the maximal digit run. -/
def matchRunsHere (l : List Char) : Option (List Char) :=
  if "/runs/".data.isPrefixOf l then
    match l.drop 6 with
    | c :: rest => if c.isDigit then some (c :: rest.takeWhile Char.isDigit) else none
    | [] => none
  else none

/-- `extractRunId` from utils/pattern-extraction.ts:
`reportLink.match(/\/runs\/(\d+)/)`, returning capture 1; empty input short-
circuits to `undefined`. -/
def extractRunId (reportLink : String) : Option String :=
  if reportLink = "" then none
  else (scanFirst matchRunsHere reportLink.data).map fun ds => String.mk ds

/-- Tail matcher for the `:(\d+):\d+` part of `/at .*:(\d+):\d+/`. -/
def lineColHere (l : List Char) : Option Int :=
  match l with
  | ':' :: rest =>
    match rest.takeWhile Char.isDigit with
    | [] => none
    | ds =>
      match rest.drop ds.length with
      | ':' :: rest2 =>
        match rest2 with
        | c :: _ => if c.isDigit then some (natOfDigits ds : Int) else none
        | [] => none
      | _ => none
  | _ => none

/-- Matcher for `/at .*:(\d+):\d+/` anchored at the current position: the
literal `at `, then a greedy `.*` (which cannot cross a newline), then
`:(\d+):\d+`; the greedy `.*` selects the rightmost matching continuation. -/
def matchAtLine (l : List Char) : Option Int :=
  if "at ".data.isPrefixOf l then
    scanLast lineColHere ((l.drop 3).takeWhile (· ≠ '\n'))
  else none

/-- `extractLineNumber`: first match of `/at .*:(\d+):\d+/` over the stack
text, capture parsed with `parseInt`. -/
def extractLineNumber (stack : String) : Option Int :=
  scanFirst matchAtLine stack.data

/-- Backtick character. -/
def backtickChar : Char := Char.ofNat 96

/-- Matcher for `` /`([^`]+)`/ `` anchored at the current position. -/
def matchBacktickHere (l : List Char) : Option String :=
  match l with
  | c :: rest =>
    if c = backtickChar then
      match rest.takeWhile (· ≠ backtickChar) with
      | [] => none
      | content =>
        match rest.drop content.length with
        | c2 :: _ => if c2 = backtickChar then some (String.mk content).trim else none
        | [] => none
    else none
  | [] => none

/-- `extractErrorSnippet`: the trimmed contents of the first backtick-enclosed
span of the error message (the stack argument is unused in the source). -/
def extractErrorSnippet (_stack : String) (errorMessage : String) : Option String :=
  scanFirst matchBacktickHere errorMessage.data

/-- Consume one alternative of
`(getBy\w+|queryBy\w+|findBy\w+|selector|locator|xpath|css)` at the current
position, returning the remainder.  The seven alternatives start with distinct
letters, so at most one applies at a given position. -/
def locatorKeywordHere (l : List Char) : Option (List Char) :=
  if "getBy".data.isPrefixOf l then
    match (l.drop 5).takeWhile isWordChar with
    | [] => none
    | run => some (l.drop (5 + run.length))
  else if "queryBy".data.isPrefixOf l then
    match (l.drop 7).takeWhile isWordChar with
    | [] => none
    | run => some (l.drop (7 + run.length))
  else if "findBy".data.isPrefixOf l then
    match (l.drop 6).takeWhile isWordChar with
    | [] => none
    | run => some (l.drop (6 + run.length))
  else if "selector".data.isPrefixOf l then some (l.drop 8)
  else if "locator".data.isPrefixOf l then some (l.drop 7)
  else if "xpath".data.isPrefixOf l then some (l.drop 5)
  else if "css".data.isPrefixOf l then some (l.drop 3)
  else none

/-- After the keyword: `\s*\(\s*["']([^"']+)["']\s*\)`, returning capture 2. -/
def quotedArgHere (l : List Char) : Option String :=
  match l.dropWhile isWsChar with
  | '(' :: r2 =>
    match r2.dropWhile isWsChar with
    | q :: r4 =>
      if isQuoteChar q then
        match r4.takeWhile (fun c => ¬ isQuoteChar c) with
        | [] => none
        | content =>
          match r4.drop content.length with
          | q2 :: r5 =>
            if isQuoteChar q2 then
              match r5.dropWhile isWsChar with
              | ')' :: _ => some (String.mk content)
              | _ => none
            else none
          | [] => none
      else none
    | [] => none
  | _ => none

/-- Matcher for the locator regex anchored at the current position. -/
def matchLocatorHere (l : List Char) : Option String :=
  match locatorKeywordHere l with
  | some rest => quotedArgHere rest
  | none => none

/-- `extractLocator`:
`/(getBy\w+|queryBy\w+|findBy\w+|selector|locator|xpath|css)\s*\(\s*["']([^"']+)["']\s*\)/`,
capture 2, on the error message. -/
def extractLocator (errorMessage : String) : Option String :=
  scanFirst matchLocatorHere errorMessage.data

/-- Tail matcher for the `\.(to\w+)` part of `/expect.*\.(to\w+)/`. -/
def dotToHere (l : List Char) : Option String :=
  match l with
  | '.' :: 't' :: 'o' :: rest =>
    match rest.takeWhile isWordChar with
    | [] => none
    | run => some (String.mk ('t' :: 'o' :: run))
  | _ => none

/-- Matcher for `/expect.*\.(to\w+)/` anchored at the current position: the
greedy `.*` (confined to the current line) selects the rightmost `.(to\w+)`. -/
def matchExpectHere (l : List Char) : Option String :=
  if "expect".data.isPrefixOf l then
    scanLast dotToHere ((l.drop 6).takeWhile (· ≠ '\n'))
  else none

/-- `extractMatcher`: first match of `/expect.*\.(to\w+)/`, capture 1. -/
def extractMatcher (errorMessage : String) : Option String :=
  scanFirst matchExpectHere errorMessage.data

/-- Matcher for `/timeout\s+(?:of\s+)?(\d+)\s*(ms|s)?/i` anchored at the
current position.  The optional `of\s+` group is tried greedily first and
dropped if no digits follow it, matching the regex engine's backtracking. -/
def matchTimeoutHere (l : List Char) : Option Int :=
  if ciPrefix "timeout" l then
    let r1 := l.drop 7
    match r1.takeWhile isWsChar with
    | [] => none
    | ws =>
      let r2 := r1.drop ws.length
      let afterOf :=
        if ciPrefix "of" r2 then
          let r2' := r2.drop 2
          match r2'.takeWhile isWsChar with
          | [] => r2
          | ws2 =>
            let cand := r2'.drop ws2.length
            match cand with
            | c :: _ => if c.isDigit then cand else r2
            | [] => r2
        else r2
      match afterOf.takeWhile Char.isDigit with
      | [] => none
      | ds =>
        let value : Int := (natOfDigits ds : Int)
        let r4 := (afterOf.drop ds.length).dropWhile isWsChar
        if ciPrefix "ms" r4 then some value
        else if ciPrefix "s" r4 then some (value * 1000)
        else some value
  else none

/-- `extractTimeout`: first match of `/timeout\s+(?:of\s+)?(\d+)\s*(ms|s)?/i`;
a unit of seconds multiplies the value by 1000. -/
def extractTimeout (errorMessage : String) : Option Int :=
  scanFirst matchTimeoutHere errorMessage.data

/-- Matcher for `/(?:KEYWORD):\s*["']([^"']+)["']/i` anchored at the current
position, where the keyword alternative has already been consumed. -/
def quotedValueHere (l : List Char) : Option String :=
  match l with
  | ':' :: r1 =>
    match r1.dropWhile isWsChar with
    | q :: r2 =>
      if isQuoteChar q then
        match r2.takeWhile (fun c => ¬ isQuoteChar c) with
        | [] => none
        | content =>
          match r2.drop content.length with
          | q2 :: _ => if isQuoteChar q2 then some (String.mk content) else none
          | [] => none
      else none
    | [] => none
  | _ => none

/-- Matcher for `/(?:received|actual|got):\s*["']([^"']+)["']/i` anchored at
the current position. -/
def matchReceivedHere (l : List Char) : Option String :=
  if ciPrefix "received" l then quotedValueHere (l.drop 8)
  else if ciPrefix "actual" l then quotedValueHere (l.drop 6)
  else if ciPrefix "got" l then quotedValueHere (l.drop 3)
  else none

/-- Matcher for `/LABEL:\s*(.+?)(?:\n|$)/i` anchored just after the label: the
greedy `\s*` (which crosses newlines) followed by a lazy `(.+?)` up to the
next newline or the end.  When only whitespace remains, backtracking still
matches inside it provided some whitespace character is not a newline, and the
trimmed capture is empty. -/
def restOfLineHere (l : List Char) : Option String :=
  let ws := l.takeWhile isWsChar
  match l.drop ws.length with
  | [] => if ws.any (· ≠ '\n') then some "" else none
  | rest => some (String.mk (rest.takeWhile (· ≠ '\n'))).trim

/-- Matcher for `/Actual:\s*(.+?)(?:\n|$)/i` anchored at the current position
(the JS code applies `.trim()` to the capture before returning it). -/
def matchActualLineHere (l : List Char) : Option String :=
  if ciPrefix "actual:" l then restOfLineHere (l.drop 7) else none

/-- `extractActualValue`: first the quoted form
`/(?:received|actual|got):\s*["']([^"']+)["']/i`, then the line-oriented
`/Actual:\s*(.+?)(?:\n|$)/i`. -/
def extractActualValue (errorMessage : String) : Option String :=
  match scanFirst matchReceivedHere errorMessage.data with
  | some v => some v
  | none => scanFirst matchActualLineHere errorMessage.data

/-- Matcher for `/(?:expected|should):\s*["']([^"']+)["']/i` anchored at the
current position. -/
def matchExpectedHere (l : List Char) : Option String :=
  if ciPrefix "expected" l then quotedValueHere (l.drop 8)
  else if ciPrefix "should" l then quotedValueHere (l.drop 6)
  else none

/-- Matcher for `/Expected:\s*(.+?)(?:\n|$)/i` anchored at the current
position. -/
def matchExpectedLineHere (l : List Char) : Option String :=
  if ciPrefix "expected:" l then restOfLineHere (l.drop 9) else none

/-- `extractExpectedValue`: first the quoted form, then the line-oriented
`Expected:` form. -/
def extractExpectedValue (errorMessage : String) : Option String :=
  match scanFirst matchExpectedHere errorMessage.data with
  | some v => some v
  | none => scanFirst matchExpectedLineHere errorMessage.data

/-- `extractPatterns` from utils/pattern-extraction.ts (the version with run-id
extraction).  `errorMessage` is statically a string, so
`parseStructuredError(typeof errorMessage === 'object' ? ... : undefined)`
returns `undefined` and the structured-error branch never fires; the function
reduces to the fallback extractions guarded by JS truthiness, merged into the
metadata with `extracted || original` on each field. -/
def extractPatterns (failure : TestFailure) : TestFailure :=
  let m := failure.metadata.getD emptyMetadata
  let lineNumber :=
    if intOptTruthy m.lineNumber then m.lineNumber
    else extractLineNumber (failure.errorStack.getD "")
  let errorSnippet :=
    if strOptTruthy m.errorSnippet then m.errorSnippet
    else extractErrorSnippet (failure.errorStack.getD "") failure.errorMessage
  let locator :=
    if strOptTruthy m.locator then m.locator
    else extractLocator failure.errorMessage
  let matcher :=
    if strOptTruthy m.matcher then m.matcher
    else extractMatcher failure.errorMessage
  let timeout :=
    if intOptTruthy m.timeout then m.timeout
    else extractTimeout failure.errorMessage
  let actualValue :=
    if strOptTruthy m.actualValue then m.actualValue
    else extractActualValue failure.errorMessage
  let expectedValue :=
    if strOptTruthy m.expectedValue then m.expectedValue
    else extractExpectedValue failure.errorMessage
  let runId :=
    if strOptTruthy m.reportLink && !(strOptTruthy m.runId) then
      extractRunId (m.reportLink.getD "")
    else m.runId
  { failure with
    metadata := some
      { m with
        errorSnippet := jsOrStr errorSnippet m.errorSnippet
        lineNumber := jsOrInt lineNumber m.lineNumber
        locator := jsOrStr locator m.locator
        matcher := jsOrStr matcher m.matcher
        timeout := jsOrInt timeout m.timeout
        actualValue := jsOrStr actualValue m.actualValue
        expectedValue := jsOrStr expectedValue m.expectedValue
        runId := jsOrStr runId m.runId
        reportLink := jsOrStr m.reportLink m.reportLink } }

/-- `createRichEmbeddingContext` from utils/pattern-extraction.ts: a
newline-joined assembly of the always-present `Test`/`File` headers, the
truthy optional metadata fields in source order, and the `Error` line. -/
def createRichEmbeddingContext (failure : TestFailure) : String :=
  let m := failure.metadata
  let parts : List String :=
    ["Test: " ++ failure.testTitle, "File: " ++ failure.testFilePath]
    ++ (match m.bind (·.projectName) with
        | some v => if v ≠ "" then ["Project: " ++ v] else []
        | none => [])
    ++ (match m.bind (·.suiteName) with
        | some v => if v ≠ "" then ["Suite: " ++ v] else []
        | none => [])
    ++ (match m.bind (·.lineNumber) with
        | some v => if v ≠ 0 then ["Line: " ++ toString v] else []
        | none => [])
    ++ (match m.bind (·.locator) with
        | some v => if v ≠ "" then ["Locator: " ++ v] else []
        | none => [])
    ++ (match m.bind (·.matcher) with
        | some v => if v ≠ "" then ["Matcher: " ++ v] else []
        | none => [])
    ++ (match m.bind (·.actualValue) with
        | some v => if v ≠ "" then ["Actual: \"" ++ v ++ "\""] else []
        | none => [])
    ++ (match m.bind (·.expectedValue) with
        | some v => if v ≠ "" then ["Expected: \"" ++ v ++ "\""] else []
        | none => [])
    ++ (match m.bind (·.timeout) with
        | some v => if v ≠ 0 then ["Timeout: " ++ toString v ++ "ms"] else []
        | none => [])
    ++ (match m.bind (·.errorSnippet) with
        | some v => if v ≠ "" then ["Code: " ++ v] else []
        | none => [])
    ++ ["Error: " ++ failure.errorMessage]
  String.intercalate "\n" parts

/-! ### Configuration and validation (utils/validation.ts) -/

/-- `ClusteringOptions` from packages/core types.  `distance` is kept as a raw
string because `validateConfig` defensively checks it against the two allowed
literals. -/
structure ClusteringOptions where
  epsilon : Rat
  minPoints : Int
  minClusterSize : Int
  distance : Option String := none
  maxClusters : Option Int := none
deriving DecidableEq, Repr

/-- The `timeWindow` sub-record of the configuration. -/
structure TimeWindow where
  days : Rat
deriving DecidableEq, Repr

/-- `FlakinessDetectiveConfig`. -/
structure FlakinessDetectiveConfig where
  clustering : ClusteringOptions
  timeWindow : TimeWindow
deriving DecidableEq, Repr

/-- `Number.isInteger` on the rational model of a JS number. -/
def isIntegerRat (q : Rat) : Bool := q.den = 1

/-- Whether an `Except` result models a thrown error. -/
def isErr : Except String α → Bool
  | .error _ => true
  | .ok _ => false

/-- `validateConfig` from utils/validation.ts: the checks in source order,
throwing (modelled by `Except.error`) on the first violation. -/
def validateConfig (config : FlakinessDetectiveConfig) : Except String Unit :=
  if config.clustering.epsilon ≤ 0 then
    .error "clustering.epsilon must be greater than 0"
  else if config.clustering.minPoints < 1 then
    .error "clustering.minPoints must be at least 1"
  else if config.clustering.minClusterSize < 1 then
    .error "clustering.minClusterSize must be at least 1"
  else if (match config.clustering.maxClusters with
           | some k => decide (k < 1)
           | none => false) then
    .error "clustering.maxClusters must be at least 1 if specified"
  else if (match config.clustering.distance with
           | some d => d != "euclidean" && d != "cosine"
           | none => false) then
    .error "clustering.distance must be 'euclidean' or 'cosine'"
  else if config.timeWindow.days ≤ 0 ∨ ¬ isIntegerRat config.timeWindow.days then
    .error "timeWindow.days must be a positive integer"
  else .ok ()

/-- One record's checks in `validateFailures`; timestamps are modelled as
valid `Date` instants, so the two `Date` checks of the source cannot fire. -/
def failureFieldError (i : Nat) (f : TestFailure) : Option String :=
  if f.id = "" then some ("failure at index " ++ toString i ++ " is missing required field: id")
  else if f.testTitle = "" then
    some ("failure at index " ++ toString i ++ " is missing required field: testTitle")
  else if f.testFilePath = "" then
    some ("failure at index " ++ toString i ++ " is missing required field: testFilePath")
  else if f.errorMessage = "" then
    some ("failure at index " ++ toString i ++ " is missing required field: errorMessage")
  else none

/-- The index-carrying loop of `validateFailures`. -/
def validateFailuresFrom (i : Nat) : List TestFailure → Except String Unit
  | [] => .ok ()
  | f :: rest =>
    match failureFieldError i f with
    | some e => .error e
    | none => validateFailuresFrom (i + 1) rest

/-- `validateFailures` from utils/validation.ts. -/
def validateFailures (failures : List TestFailure) : Except String Unit :=
  validateFailuresFrom 0 failures

/-- Component check of `validateEmbeddings`: the first NaN component of a
vector, as an error message (`typeof x !== 'number'` cannot fire on a
`number[][]`). -/
def firstNaNError (i : Nat) (vec : List JSNum) : Option String :=
  (vec.enum.find? (fun p => p.2.isNaN)).map fun p =>
    "embedding at index " ++ toString i ++ ", dimension " ++ toString p.1 ++
      " is not a valid number"

/-- Per-vector check of `validateEmbeddings` (`Array.isArray` cannot fail on a
`number[][]`). -/
def embeddingError (firstLength : Nat) (i : Nat) (vec : List JSNum) : Option String :=
  if vec.length ≠ firstLength then
    some ("embedding at index " ++ toString i ++ " has length " ++ toString vec.length ++
      ", expected " ++ toString firstLength)
  else firstNaNError i vec

/-- The indexed loop of `validateEmbeddings`. -/
def validateEmbeddingsFrom (firstLength : Nat) (i : Nat) :
    List (List JSNum) → Except String Unit
  | [] => .ok ()
  | vec :: rest =>
    match embeddingError firstLength i vec with
    | some e => .error e
    | none => validateEmbeddingsFrom firstLength (i + 1) rest

/-- `validateEmbeddings` from utils/validation.ts: rejects an empty list, an
empty first vector, a length mismatch against the first vector, and NaN
components (`Number.isNaN`); infinite components pass. -/
def validateEmbeddings (embeddings : List (List JSNum)) : Except String Unit :=
  if embeddings.length = 0 then .error "embeddings must be a non-empty array"
  else
    let firstLength := (embeddings.headD []).length
    if firstLength = 0 then .error "embeddings must contain non-empty arrays"
    else validateEmbeddingsFrom firstLength 0 embeddings

/-! ### Clustering and summarization (clustering/dbscan.ts) -/

/-- `FailureCluster.commonPatterns`. -/
structure CommonPatterns where
  filePaths : List String
  lineNumbers : List Int
  codeSnippets : List String
  locators : List String
  matchers : List String
  timeouts : List Int
deriving DecidableEq, Repr

/-- `FailureCluster.metadata`. -/
structure ClusterMetadata where
  failureCount : Nat
  firstSeen : Int
  lastSeen : Int
  averageTimeBetweenFailures : Option Rat
  failureIds : List String
  runIds : List String
  failureTimestamps : List Int
  errorMessages : List String
deriving DecidableEq, Repr

/-- `FailureCluster`. -/
structure FailureCluster where
  id : String
  failures : List EmbeddedFailure
  commonPatterns : CommonPatterns
  metadata : ClusterMetadata
  failurePattern : String
  assertionPattern : Option String
deriving DecidableEq, Repr

/-- Placeholder values standing for the `undefined` a JS out-of-range index
would produce (the theorems only use in-range indices). -/
def junkFailure : EmbeddedFailure :=
  { id := "", testTitle := "", testFilePath := "", errorMessage := "", timestamp := 0,
    embedding := [] }

/-- Placeholder cluster for out-of-range list reads in concrete statements. -/
def junkCluster : FailureCluster :=
  { id := "", failures := [],
    commonPatterns := ⟨[], [], [], [], [], []⟩,
    metadata := ⟨0, 0, 0, none, [], [], [], []⟩,
    failurePattern := "", assertionPattern := none }

/-- `generateClusterId`. -/
def generateClusterId (baseKey : String) (index : Nat) : String :=
  baseKey ++ "-" ++ toString index

/-- `Math.ceil(clusterSize * 0.5)` on a natural number. -/
def frequencyThreshold (clusterSize : Nat) : Nat := (clusterSize + 1) / 2

/-- The distinct values of a list in first-occurrence order, modelling the
iteration order of the JS tally objects (`Object.entries` lists string keys in
insertion order; purely-numeric keys are listed in ascending order instead,
which permutes the `lineNumbers`/`timeouts` lists but changes neither their
membership nor the counts the claims are about). -/
def firstKeys [DecidableEq α] (l : List α) : List α :=
  l.foldl (fun acc a => if a ∈ acc then acc else acc ++ [a]) []

/-- The values whose tally reaches the threshold: the
`Object.entries(counts).filter(...).map(...)` idiom of `createFailureCluster`. -/
def commonValues [DecidableEq α] (vals : List α) (threshold : Nat) : List α :=
  (firstKeys vals).filter fun v => threshold ≤ vals.count v

/-- A truthy optional string, or nothing (`if (x) { counts[x]++ }`). -/
def truthyStr (o : Option String) : Option String :=
  match o with
  | some s => if s = "" then none else some s
  | none => none

/-- Consecutive differences `l[i+1] - l[i]` of a list of instants. -/
def consecDeltas (l : List Int) : List Int :=
  List.zipWith (fun a b => a - b) (l.drop 1) l

/-- `createFailureCluster` from clustering/dbscan.ts.  The tally objects are
modelled by value lists in member order (`firstKeys`/`count`).  JS
`Array.prototype.sort` is stable, and a stable sort under a total preorder
comparator has a unique result; it is modelled by `List.insertionSort`, which
is stable and computable. -/
def createFailureCluster (failures : List EmbeddedFailure) (clusterId : String) :
    FailureCluster :=
  let clusterSize := failures.length
  let threshold := frequencyThreshold clusterSize
  let filePathVals := failures.map (·.testFilePath)
  let lineNumberVals := failures.filterMap fun f => f.metadata.bind (·.lineNumber)
  let codeSnippetVals := failures.filterMap fun f => truthyStr (f.metadata.bind (·.errorSnippet))
  let locatorVals := failures.filterMap fun f => truthyStr (f.metadata.bind (·.locator))
  let matcherVals := failures.filterMap fun f => truthyStr (f.metadata.bind (·.matcher))
  let timeoutVals := failures.filterMap fun f => f.metadata.bind (·.timeout)
  let failureIds := failures.map (·.id)
  let runIds := failures.filterMap fun f => truthyStr (f.metadata.bind (·.runId))
  let failureTimestamps := failures.map (·.timestamp)
  let errorMessages := failures.map fun f => String.mk (f.errorMessage.data.take 200)
  let commonFilePaths := commonValues filePathVals threshold
  let commonLineNumbers := commonValues lineNumberVals threshold
  let commonCodeSnippets := commonValues codeSnippetVals threshold
  let commonLocators := commonValues locatorVals threshold
  let commonMatchers := commonValues matcherVals threshold
  let commonTimeouts := commonValues timeoutVals threshold
  let sortedFailures := failures.insertionSort fun a b => a.timestamp ≤ b.timestamp
  let firstSeen := ((sortedFailures.head?).map (·.timestamp)).getD 0
  let lastSeen := ((sortedFailures.getLast?).map (·.timestamp)).getD 0
  let averageTimeBetweenFailures : Option Rat :=
    if 1 < failures.length then
      some ((((consecDeltas (sortedFailures.map (·.timestamp))).sum : Int) : Rat) /
        (((sortedFailures.length : Int) - 1 : Int) : Rat))
    else none
  let failurePattern :=
    if commonFilePaths ≠ [] ∧ commonLineNumbers ≠ [] then
      "Common failure at " ++ commonFilePaths.headD "" ++ ":" ++
        toString (commonLineNumbers.headD 0)
    else if commonCodeSnippets ≠ [] then
      let snippet := commonCodeSnippets.headD ""
      "Common code pattern: " ++ String.mk (snippet.data.take 100) ++
        (if 100 < snippet.data.length then "..." else "")
    else "Similar test failures"
  let assertionPattern : Option String :=
    if commonLocators ≠ [] ∧ commonMatchers ≠ [] then
      some (commonMatchers.headD "" ++ " on " ++ commonLocators.headD "" ++
        (if commonTimeouts ≠ [] then
          " (" ++ toString (commonTimeouts.headD 0) ++ "ms timeout)"
        else ""))
    else if commonLocators ≠ [] then some ("Common locator: " ++ commonLocators.headD "")
    else if commonMatchers ≠ [] then some ("Common matcher: " ++ commonMatchers.headD "")
    else none
  { id := clusterId
    failures := failures
    commonPatterns :=
      ⟨commonFilePaths, commonLineNumbers, commonCodeSnippets, commonLocators,
        commonMatchers, commonTimeouts⟩
    metadata :=
      ⟨failures.length, firstSeen, lastSeen, averageTimeBetweenFailures, failureIds,
        runIds, failureTimestamps, errorMessages⟩
    failurePattern := failurePattern
    assertionPattern := assertionPattern }

/-- `Array.prototype.slice(0, endIdx)` for a possibly negative end index. -/
def jsSlice (l : List α) (endIdx : Int) : List α :=
  if 0 ≤ endIdx then l.take endIdx.toNat
  else l.take ((l.length : Int) + endIdx).toNat

/-- The `.filter(cluster => cluster.length >= options.minClusterSize)` stage of
`clusterFailures` applied to the index sets returned by the DBSCAN library. -/
def survivingIndexSets (clusters : List (List Nat)) (options : ClusteringOptions) :
    List (List Nat) :=
  clusters.filter fun cl => (options.minClusterSize : Int) ≤ (cl.length : Int)

/-- The `.map((clusterIndices, index) => createFailureCluster(...))` stage:
each surviving index set becomes a cluster with a deterministic id. -/
def assembledClusters (run : List (List JSNum) → List (List Nat)) (today : String)
    (embeddedFailures : List EmbeddedFailure) (options : ClusteringOptions) :
    List FailureCluster :=
  let embeddings := embeddedFailures.map (·.embedding)
  let survivors := survivingIndexSets (run embeddings) options
  survivors.enum.map fun p =>
    createFailureCluster (p.2.map fun i => (embeddedFailures.get? i).getD junkFailure)
      (generateClusterId today p.1)

/-- The `.sort((a, b) => b.failures.length - a.failures.length)` stage: JS
`Array.prototype.sort` is stable, modelled by the stable `List.insertionSort`
under the descending-by-size total preorder. -/
def rankedClusters (run : List (List JSNum) → List (List Nat)) (today : String)
    (embeddedFailures : List EmbeddedFailure) (options : ClusteringOptions) :
    List FailureCluster :=
  (assembledClusters run today embeddedFailures options).insertionSort fun a b =>
    b.failures.length ≤ a.failures.length

/-- `clusterFailures` from clustering/dbscan.ts.  `run` stands for the foreign
call `new DBSCAN().run(embeddings, options.epsilon, options.minPoints,
distanceFunc)` (with `distanceFunc` chosen from `options.distance`), and
`today` for `new Date().toISOString().slice(0, 10)`. -/
def clusterFailures (run : List (List JSNum) → List (List Nat)) (today : String)
    (embeddedFailures : List EmbeddedFailure) (options : ClusteringOptions) :
    List FailureCluster :=
  if embeddedFailures.length = 0 then []
  else
    jsSlice (rankedClusters run today embeddedFailures options)
      (options.maxClusters.getD 5)

/-! ### Embedding provider (adapters: google-genai-provider.ts) -/

/-- The configuration fields of `GoogleGenAIProvider` that matter to
`generateEmbeddings`. -/
structure GoogleGenAIConfig where
  maxBatchSize : Option Nat := none
  batchDelay : Option Nat := none
deriving DecidableEq, Repr

/-- `config.maxBatchSize || 5` as resolved in the provider constructor
(`0` and `undefined` both fall back to 5). -/
def resolvedMaxBatchSize (config : GoogleGenAIConfig) : Nat :=
  match config.maxBatchSize with
  | none => 5
  | some 0 => 5
  | some k => k

/-- Structural worker for `createBatches`: the fuel starts at the list length
and bounds the number of chunks (each chunk consumes at least one element for
`batchSize ≥ 1`). -/
def createBatchesAux (batchSize : Nat) : Nat → List α → List (List α)
  | _, [] => []
  | 0, _ :: _ => []
  | fuel + 1, x :: xs =>
    (x :: xs).take batchSize :: createBatchesAux batchSize fuel (xs.drop (batchSize - 1))

/-- `createBatches`: split into consecutive chunks of at most `batchSize`
(`for (let i = 0; i < array.length; i += batchSize) batches.push(array.slice(i, i + batchSize))`).
The constructor guarantees `batchSize ≥ 1`; for `batchSize = 0` the JS loop
would not terminate, while this model stops after `array.length` chunks. -/
def createBatches (batchSize : Nat) (l : List α) : List (List α) :=
  createBatchesAux batchSize l.length l

/-- JS string interpolation of a thrown `Error` object carrying `msg`. -/
def jsErrorString (msg : String) : String := "Error: " ++ msg

/-- `embedContent`, with the external model call abstracted as `modelEmbed`:
a model failure is rethrown as `Failed to embed content: ...`. -/
def embedContent (modelEmbed : String → Except String (List JSNum)) (text : String) :
    Except String (List JSNum) :=
  match modelEmbed text with
  | .ok v => .ok v
  | .error e => .error ("Failed to embed content: " ++ jsErrorString e)

/-- `Promise.all` over one batch: the first rejection wins, otherwise all
results in input order. -/
def awaitAll : List (Except String α) → Except String (List α)
  | [] => .ok []
  | .error e :: _ => .error e
  | .ok a :: rest => (awaitAll rest).map (a :: ·)

/-- The batch loop of `generateEmbeddings`: each batch is embedded via
`Promise.all`; a batch failure is rethrown as
`Failed to generate embeddings for batch: ...` — without the batch index,
which only reaches the logger. -/
def embedBatches (modelEmbed : String → Except String (List JSNum)) :
    List (List String) → Except String (List (List JSNum))
  | [] => .ok []
  | batch :: rest =>
    match awaitAll (batch.map (embedContent modelEmbed)) with
    | .error e => .error ("Failed to generate embeddings for batch: " ++ jsErrorString e)
    | .ok vs => (embedBatches modelEmbed rest).map (vs ++ ·)

/-- `GoogleGenAIProvider.generateEmbeddings` (client initialization and the
inter-batch delay have no observable effect on the returned value). -/
def generateEmbeddings (modelEmbed : String → Except String (List JSNum))
    (config : GoogleGenAIConfig) (texts : List String) :
    Except String (List (List JSNum)) :=
  if texts.length = 0 then .ok []
  else embedBatches modelEmbed (createBatches (resolvedMaxBatchSize config) texts)

/-! ### The `detect` pipeline (flakiness-detective.ts) -/

/-- The observable outcome of one `detect()` call: its return value (or thrown
error), how many times the embedding provider's `generateEmbeddings` was
invoked, and the argument of the `saveClusters` call if one was made. -/
structure DetectOutcome where
  result : Except String (List FailureCluster)
  embedderCalls : Nat
  savedClusters : Option (List FailureCluster)
deriving Repr

/-- `FlakinessDetective.detect`, with the collaborators passed explicitly:
`fetched` is the result of `dataAdapter.fetchFailures`, `provider` the
embedding provider's `generateEmbeddings`, `run` the DBSCAN library call and
`today` the current date key.  An empty fetch returns `[]` before the embedder
or `saveClusters` is ever reached. -/
def detect (fetched : List TestFailure)
    (provider : List String → Except String (List (List JSNum)))
    (run : List (List JSNum) → List (List Nat)) (today : String)
    (config : FlakinessDetectiveConfig) : DetectOutcome :=
  if fetched.length = 0 then ⟨.ok [], 0, none⟩
  else
    match validateFailures fetched with
    | .error e => ⟨.error e, 0, none⟩
    | .ok _ =>
      let enhancedFailures := fetched.map extractPatterns
      let contexts := enhancedFailures.map createRichEmbeddingContext
      match provider contexts with
      | .error e => ⟨.error e, 1, none⟩
      | .ok embeddings =>
        match validateEmbeddings embeddings with
        | .error e => ⟨.error e, 1, none⟩
        | .ok _ =>
          let embeddedFailures := enhancedFailures.enum.map fun p =>
            { p.2 with embedding := (embeddings.get? p.1).getD [] }
          let clusters := clusterFailures run today embeddedFailures config.clustering
          ⟨.ok clusters, 1, some clusters⟩

/-! ### Declarative vocabulary used by the theorem statements -/

/-- Position `i` of `l` carries a substring of the form `/runs/<digit...>`. -/
def runsAt (l : List Char) (i : Nat) : Bool :=
  "/runs/".data.isPrefixOf (l.drop i) &&
    (match l.drop (i + 6) with
     | c :: _ => c.isDigit
     | [] => false)

/-- The maximal digit run following the `/runs/` at position `i`. -/
def digitsAt (l : List Char) (i : Nat) : List Char :=
  (l.drop (i + 6)).takeWhile Char.isDigit

/-- The mean of the consecutive deltas of a list of instants. -/
def meanDeltas (l : List Int) : Rat :=
  (((consecDeltas l).sum : Int) : Rat) / (((l.length : Int) - 1 : Int) : Rat)

/-- Lexicographic order on character lists: the JS `<` comparison of the
id strings (UTF-16 lexicographic; identical to code-point order here). -/
def strLexLt : List Char → List Char → Bool
  | [], [] => false
  | [], _ :: _ => true
  | _ :: _, [] => false
  | a :: as, b :: bs => if a < b then true else if b < a then false else strLexLt as bs

/-! ### Concrete data for counterexamples and witnesses -/

/-- A minimal embedded failure with the given id index and timestamp. -/
def sampleFailure (i : Nat) : EmbeddedFailure :=
  { id := toString i, testTitle := "t", testFilePath := "p", errorMessage := "e",
    timestamp := (i : Int), embedding := [] }

/-- Six isolated failures. -/
def sixFailures : List EmbeddedFailure := (List.range 6).map sampleFailure

/-- The DBSCAN output for six isolated points with `minPoints = 1`: each point
is a core point of its own singleton cluster (§4.5: the neighborhood includes
the point itself). -/
def sixSingletonRun : List (List JSNum) → List (List Nat) :=
  fun _ => [[0], [1], [2], [3], [4], [5]]

/-- Options leaving `maxClusters` unset. -/
def optsUnsetMax : ClusteringOptions :=
  { epsilon := 1, minPoints := 1, minClusterSize := 1 }

/-- Eleven isolated failures. -/
def elevenFailures : List EmbeddedFailure := (List.range 11).map sampleFailure

/-- The DBSCAN output for eleven isolated points with `minPoints = 1`. -/
def elevenSingletonRun : List (List JSNum) → List (List Nat) :=
  fun _ => (List.range 11).map fun i => [i]

/-- Options with `maxClusters = 11` (accepted by `validateConfig`). -/
def optsElevenMax : ClusteringOptions :=
  { epsilon := 1, minPoints := 1, minClusterSize := 1, maxClusters := some 11 }

/-- Two similar failures with rich metadata, an hour . . . 200 ms apart. -/
def pairFailures : List EmbeddedFailure :=
  [{ id := "a", testTitle := "t", testFilePath := "p", errorMessage := "e",
     timestamp := 100, embedding := [],
     metadata := some { locator := some "button.login", matcher := some "toBeVisible",
                        timeout := some 5000, runId := some "123" } },
   { id := "b", testTitle := "t", testFilePath := "p", errorMessage := "e",
     timestamp := 300, embedding := [],
     metadata := some { locator := some "button.login", matcher := some "toBeVisible",
                        timeout := some 5000, runId := some "124" } }]

/-- The DBSCAN output grouping both points into one cluster. -/
def pairRun : List (List JSNum) → List (List Nat) := fun _ => [[0, 1]]

/-- Options for the two-failure pass. -/
def optsPair : ClusteringOptions := { epsilon := 1, minPoints := 2, minClusterSize := 2 }

/-- A failure whose caller-supplied `timeout` is the falsy value `0` and whose
error message carries an extractable timeout. -/
def zeroTimeoutFailure : TestFailure :=
  { id := "f", testTitle := "t", testFilePath := "p", errorMessage := "timeout 5000ms",
    timestamp := 0, metadata := some { timeout := some 0 } }

/-- Metadata with every extractor-managed field set to a truthy value. -/
def richMetadata : TestFailureMetadata :=
  { errorSnippet := some "snip", lineNumber := some 7, locator := some "loc",
    matcher := some "toBe", timeout := some 5000, actualValue := some "a",
    expectedValue := some "b", runId := some "42",
    reportLink := some "https://x/runs/42" }

/-- A failure with every extractor-managed metadata field set to a truthy
value. -/
def richFailure : TestFailure :=
  { id := "f", testTitle := "t", testFilePath := "p", errorMessage := "msg",
    timestamp := 0, metadata := some richMetadata }

/-- A failure with a report link and no run id. -/
def runLinkFailure : TestFailure :=
  { id := "f", testTitle := "t", testFilePath := "p", errorMessage := "boom",
    timestamp := 0, metadata := some { reportLink := some "https://x/runs/999" } }

/-- An embedding model that fails on the first text of the first batch. -/
def modelFailBatch0 : String → Except String (List JSNum) :=
  fun t => if t = "a1" then .error "boom" else .ok [JSNum.finite 1]

/-- An embedding model that fails on the only text of the second batch. -/
def modelFailBatch1 : String → Except String (List JSNum) :=
  fun t => if t = "b1" then .error "boom" else .ok [JSNum.finite 1]

/-- Three texts that a `maxBatchSize` of 2 splits into batches
`[a1, a2]` and `[b1]`. -/
def threeTexts : List String := ["a1", "a2", "b1"]

/-- A provider configuration with `maxBatchSize = 2`. -/
def batchTwoConfig : GoogleGenAIConfig := { maxBatchSize := some 2, batchDelay := some 10 }

/-- The default configuration of packages/core types, with `epsilon`
overridden to `-0.1` (scenario 3 of the specification). -/
def negativeEpsilonConfig : FlakinessDetectiveConfig :=
  { clustering :=
      { epsilon := -(1 / 10), minPoints := 2, minClusterSize := 2,
        distance := some "cosine", maxClusters := some 5 },
    timeWindow := { days := 7 } }

/-! ### Helper lemmas -/

/-- Indexing with a default stays inside the list. -/
theorem getD_mem {l : List α} {i : Nat} {d : α} (h : i < l.length) : l.getD i d ∈ l := by
  induction l generalizing i with
  | nil => simp at h
  | cons x xs ih =>
    cases i with
    | zero => simp [List.getD]
    | succ j =>
      simp only [List.length_cons, Nat.succ_lt_succ_iff] at h
      exact List.mem_cons_of_mem x (ih h)

/-- Membership in the fold underlying `firstKeys`. -/
theorem mem_firstKeys_fold {a : α} [DecidableEq α] :
    ∀ (l acc : List α),
      a ∈ l.foldl (fun acc b => if b ∈ acc then acc else acc ++ [b]) acc ↔
        a ∈ acc ∨ a ∈ l := by
  intro l
  induction l with
  | nil => simp
  | cons x xs ih =>
    intro acc
    simp only [List.foldl_cons, ih, List.mem_cons]
    by_cases hx : x ∈ acc
    · simp only [if_pos hx]
      constructor
      · rintro (h | h)
        · exact Or.inl h
        · exact Or.inr (Or.inr h)
      · rintro (h | h | h)
        · exact Or.inl h
        · exact Or.inl (h ▸ hx)
        · exact Or.inr h
    · simp only [if_neg hx, List.mem_append, List.mem_singleton]
      tauto

/-- `firstKeys` has the same members as its input. -/
theorem mem_firstKeys {a : α} [DecidableEq α] {l : List α} :
    a ∈ firstKeys l ↔ a ∈ l := by
  simp [firstKeys, mem_firstKeys_fold]

/-- Values kept by `commonValues` occur in the input and reach the
threshold. -/
theorem commonValues_spec [DecidableEq α] {vals : List α} {t : Nat} {v : α}
    (h : v ∈ commonValues vals t) : v ∈ vals ∧ t ≤ vals.count v := by
  have h' := List.mem_filter.mp h
  exact ⟨mem_firstKeys.mp h'.1, by simpa using h'.2⟩

/-- Counting in a `filterMap` image equals counting preimages. -/
theorem count_filterMap_eq_length_filter [DecidableEq α] (g : β → Option α) (v : α) :
    ∀ l : List β, (l.filterMap g).count v = (l.filter fun x => g x = some v).length := by
  intro l
  induction l with
  | nil => simp
  | cons x xs ih =>
    cases hx : g x with
    | none =>
      rw [List.filterMap_cons_none hx, List.filter_cons_of_neg (by simp [hx]), ih]
    | some w =>
      rw [List.filterMap_cons_some hx]
      by_cases hw : w = v
      · subst hw
        rw [List.count_cons_self, List.filter_cons_of_pos (by simp [hx]), ih]
        simp
      · rw [List.count_cons_of_ne (fun h => hw h.symm),
          List.filter_cons_of_neg (by simp [hx, hw]), ih]

/-- `truthyStr` never produces the empty string. -/
theorem truthyStr_ne_empty {o : Option String} {s : String} (h : truthyStr o = some s) :
    s ≠ "" := by
  cases o with
  | none => simp [truthyStr] at h
  | some t =>
    by_cases ht : t = "" <;> simp [truthyStr, ht] at h
    exact h ▸ ht

/-- For a value known to be truthy, `truthyStr` agrees with the identity. -/
theorem truthyStr_eq_some_iff {o : Option String} {s : String} (hs : s ≠ "") :
    truthyStr o = some s ↔ o = some s := by
  cases o with
  | none => simp [truthyStr]
  | some t =>
    by_cases ht : t = ""
    · subst ht
      simp only [truthyStr, if_pos rfl, Option.some.injEq]
      constructor
      · intro h
        cases h
      · intro h
        exact absurd h.symm hs
    · simp [truthyStr, ht]

/-- C10: when `fetchFailures` returns no failures, `detect` returns the empty
cluster list at once: the embedding provider is never invoked and
`saveClusters` is never called, leaving previously stored clusters
unchanged. -/
theorem detect_empty_frame (provider : List String → Except String (List (List JSNum)))
    (run : List (List JSNum) → List (List Nat)) (today : String)
    (config : FlakinessDetectiveConfig) :
    detect [] provider run today config =
      ⟨Except.ok ([] : List FailureCluster), 0, none⟩ := rfl

/-- C8: the detector's construction-time validation of the merged
configuration fails exactly on a non-positive `epsilon`, `minPoints < 1`,
`minClusterSize < 1`, a specified `maxClusters < 1`, a specified `distance`
outside {euclidean, cosine}, or a `timeWindow.days` that is not a positive
integer; and for `epsilon = -0.1` the error message contains
`epsilon must be greater than 0`. -/
theorem validateConfig_spec :
    (∀ config : FlakinessDetectiveConfig,
      isErr (validateConfig config) = true ↔
        (config.clustering.epsilon ≤ 0 ∨ config.clustering.minPoints < 1 ∨
          config.clustering.minClusterSize < 1 ∨
          (∃ k, config.clustering.maxClusters = some k ∧ k < 1) ∨
          (∃ d, config.clustering.distance = some d ∧ d ≠ "euclidean" ∧ d ≠ "cosine") ∨
          config.timeWindow.days ≤ 0 ∨ ¬ isIntegerRat config.timeWindow.days = true)) ∧
    validateConfig negativeEpsilonConfig =
      Except.error "clustering.epsilon must be greater than 0" ∧
    "epsilon must be greater than 0".data <:+:
      "clustering.epsilon must be greater than 0".data := by
  refine ⟨?_, ?_, ⟨"clustering.".data, [], by decide⟩⟩
  · intro config
    obtain ⟨⟨eps, minP, minC, dist, maxC⟩, ⟨days⟩⟩ := config
    cases maxC <;> cases dist <;>
      (simp only [validateConfig]; split_ifs <;> simp_all [isErr])
  · rw [validateConfig]
    rw [if_pos (by norm_num [negativeEpsilonConfig])]

/-- C2 counterexample: a vector whose only component is positive infinity is
not finite, yet `validateEmbeddings` accepts it (the code checks only
`Number.isNaN`, not `Number.isFinite`). -/
theorem validateEmbeddings_accepts_infinity :
    validateEmbeddings [[JSNum.posInf]] = Except.ok () ∧
      JSNum.posInf.isFiniteNum = false := by
  exact ⟨rfl, rfl⟩

/-- The component scan of `validateEmbeddings` finds an error exactly when the
vector has a NaN component. -/
theorem firstNaNError_isSome (i : Nat) (v : List JSNum) :
    (firstNaNError i v).isSome = true ↔ ∃ x ∈ v, x.isNaN = true := by
  rw [firstNaNError]
  cases hf : List.find? (fun p => p.2.isNaN) v.enum with
  | none =>
    simp only [Option.map_none', Option.isSome_none, Bool.false_eq_true, false_iff]
    rintro ⟨x, hx, h⟩
    have hx' : x ∈ v.enum.map Prod.snd := by simpa using hx
    obtain ⟨p, hp, rfl⟩ := List.mem_map.mp hx'
    exact absurd h (by simpa using List.find?_eq_none.mp hf p hp)
  | some p =>
    simp only [Option.map_some', Option.isSome_some, true_iff]
    have hmem := List.mem_of_find?_eq_some hf
    have hp := List.find?_some hf
    exact ⟨p.2, by simpa using List.mem_map_of_mem Prod.snd hmem, by simpa using hp⟩

/-- The per-vector check of `validateEmbeddings` fires exactly on a length
mismatch or a NaN component. -/
theorem embeddingError_isSome (L i : Nat) (v : List JSNum) :
    (embeddingError L i v).isSome = true ↔
      (v.length ≠ L ∨ ∃ x ∈ v, x.isNaN = true) := by
  rw [embeddingError]
  by_cases h : v.length ≠ L
  · simp [h]
  · simp [h, firstNaNError_isSome]

/-- The loop of `validateEmbeddings` errors exactly when some vector violates
the per-vector check. -/
theorem validateEmbeddingsFrom_isErr (L : Nat) :
    ∀ (i : Nat) (l : List (List JSNum)),
      isErr (validateEmbeddingsFrom L i l) = true ↔
        ∃ v ∈ l, v.length ≠ L ∨ ∃ x ∈ v, x.isNaN = true := by
  intro i l
  induction l generalizing i with
  | nil => simp [validateEmbeddingsFrom, isErr]
  | cons v rest ih =>
    rw [validateEmbeddingsFrom]
    cases h : embeddingError L i v with
    | some e =>
      have hv : v.length ≠ L ∨ ∃ x ∈ v, x.isNaN = true :=
        (embeddingError_isSome L i v).mp (by simp [h])
      simp only [isErr]
      simp [hv]
    | none =>
      have hv : ¬ (v.length ≠ L ∨ ∃ x ∈ v, x.isNaN = true) := by
        rw [← embeddingError_isSome L i v, h]
        simp
      simp [ih (i + 1), hv]

/-- C2 (amended): `validateEmbeddings` raises a `ValidationError` if and only
if the vector sequence is empty, some vector is empty, some vector differs in
length from the first, or some component is NaN.  (The claim's stronger
"not a finite number" is refuted by `validateEmbeddings_accepts_infinity`:
infinite components are accepted because the code tests `Number.isNaN`
only.) -/
theorem validateEmbeddings_spec (embeddings : List (List JSNum)) :
    isErr (validateEmbeddings embeddings) = true ↔
      (embeddings = [] ∨ (∃ v ∈ embeddings, v = []) ∨
        (∃ v ∈ embeddings, v.length ≠ (embeddings.headD []).length) ∨
        (∃ v ∈ embeddings, ∃ x ∈ v, x.isNaN = true)) := by
  cases embeddings with
  | nil => simp [validateEmbeddings, isErr]
  | cons e0 rest =>
    rw [validateEmbeddings]
    rw [if_neg (by simp)]
    simp only [List.headD_cons]
    by_cases hL : e0.length = 0
    · have he0 : e0 = [] := List.length_eq_zero.mp hL
      rw [if_pos hL]
      simp only [isErr, true_iff]
      exact Or.inr (Or.inl ⟨e0, by simp, he0⟩)
    · rw [if_neg hL]
      rw [validateEmbeddingsFrom_isErr]
      constructor
      · rintro ⟨v, hv, h | h⟩
        · exact Or.inr (Or.inr (Or.inl ⟨v, hv, h⟩))
        · exact Or.inr (Or.inr (Or.inr ⟨v, hv, h⟩))
      · rintro (h | ⟨v, hv, h⟩ | ⟨v, hv, h⟩ | ⟨v, hv, h⟩)
        · exact absurd h (by simp)
        · refine ⟨v, hv, Or.inl ?_⟩
          rw [h]
          simp only [List.length_nil]
          exact fun hh => hL hh.symm
        · exact ⟨v, hv, Or.inl h⟩
        · exact ⟨v, hv, Or.inr h⟩

/-- C1 counterexample: with `maxClusters` unset and six surviving clusters,
`clusterFailures` returns only five clusters — unset does not mean "return
all" but "return the default five". -/
theorem clusterFailures_unset_caps_at_five :
    optsUnsetMax.maxClusters = none ∧
      (survivingIndexSets (sixSingletonRun (sixFailures.map (·.embedding)))
        optsUnsetMax).length = 6 ∧
      (clusterFailures sixSingletonRun "2025-01-01" sixFailures optsUnsetMax).length = 5 := by
  refine ⟨rfl, by decide, by decide⟩

/-- C1 (amended): `clusterFailures` returns the first `maxClusters ?? 5`
clusters of the ranked list: the first five when `maxClusters` is unset (not
all of them), at most `maxClusters` when it is specified with a value of at
least 1 (`validateConfig` rejects smaller values), and — at this function's
level — the empty list when it is zero. -/
theorem clusterFailures_rank_cap (run : List (List JSNum) → List (List Nat))
    (today : String) (embeddedFailures : List EmbeddedFailure)
    (options : ClusteringOptions) :
    (embeddedFailures.length ≠ 0 → options.maxClusters = none →
      clusterFailures run today embeddedFailures options =
        (rankedClusters run today embeddedFailures options).take 5) ∧
    (embeddedFailures.length ≠ 0 → ∀ k : Int, options.maxClusters = some k → 0 ≤ k →
      clusterFailures run today embeddedFailures options =
        (rankedClusters run today embeddedFailures options).take k.toNat) ∧
    (∀ k : Int, options.maxClusters = some k → 1 ≤ k →
      (clusterFailures run today embeddedFailures options).length ≤ k.toNat) ∧
    (options.maxClusters = some 0 →
      clusterFailures run today embeddedFailures options = []) := by
  refine ⟨?_, ?_, ?_, ?_⟩
  · intro hne hnone
    rw [clusterFailures, if_neg hne, hnone]
    simp [jsSlice]
  · intro hne k hk hk0
    rw [clusterFailures, if_neg hne, hk]
    simp [jsSlice, hk0]
  · intro k hk hk1
    rw [clusterFailures]
    split
    · simp
    · rw [hk, Option.getD_some, jsSlice, if_pos (le_trans zero_le_one hk1)]
      exact List.length_take_le _ _
  · intro hk
    rw [clusterFailures]
    split
    · rfl
    · rw [hk]
      simp [jsSlice]

/-- C1 witness: a concrete capped pass exercising the amended rank-and-cap
theorem. -/
theorem clusterFailures_rank_cap_witness :
    (clusterFailures sixSingletonRun "2025-01-01" sixFailures optsUnsetMax =
      (rankedClusters sixSingletonRun "2025-01-01" sixFailures optsUnsetMax).take 5) ∧
    (clusterFailures elevenSingletonRun "2025-01-01" elevenFailures
        optsElevenMax).length ≤ (11 : Int).toNat := by
  constructor
  · exact (clusterFailures_rank_cap sixSingletonRun "2025-01-01" sixFailures
      optsUnsetMax).1 (by decide) rfl
  · exact (clusterFailures_rank_cap elevenSingletonRun "2025-01-01" elevenFailures
      optsElevenMax).2.2.1 11 rfl (by decide)

/-- `a || a` is `a` for optional strings. -/
theorem jsOrStr_self (a : Option String) : jsOrStr a a = a := by
  unfold jsOrStr
  split <;> rfl

/-- `a || a` is `a` for optional numbers. -/
theorem jsOrInt_self (a : Option Int) : jsOrInt a a = a := by
  unfold jsOrInt
  split <;> rfl

/-- C3 counterexample: a caller-supplied `timeout` of `0` (a set but falsy
metadata value) is overwritten by the value extracted from the error message,
so extracted values do overwrite caller-supplied ones when these are falsy. -/
theorem extractPatterns_overwrites_falsy_timeout :
    (zeroTimeoutFailure.metadata.getD emptyMetadata).timeout = some 0 ∧
      ((extractPatterns zeroTimeoutFailure).metadata.getD emptyMetadata).timeout =
        some 5000 := by
  exact ⟨rfl, by decide⟩

/-- C3 (amended): `extractPatterns` preserves every caller-supplied metadata
value that is truthy in the JS sense (a non-zero number, a non-empty string):
for those fields the output metadata carries exactly the input value.  (Falsy
set values — `0` and `""` — can be overwritten, as
`extractPatterns_overwrites_falsy_timeout` shows.) -/
theorem extractPatterns_preserves_truthy (f : TestFailure) (m : TestFailureMetadata)
    (hm : f.metadata = some m) :
    (∀ v : Int, m.lineNumber = some v → v ≠ 0 →
      ((extractPatterns f).metadata.getD emptyMetadata).lineNumber = some v) ∧
    (∀ s, m.errorSnippet = some s → s ≠ "" →
      ((extractPatterns f).metadata.getD emptyMetadata).errorSnippet = some s) ∧
    (∀ s, m.locator = some s → s ≠ "" →
      ((extractPatterns f).metadata.getD emptyMetadata).locator = some s) ∧
    (∀ s, m.matcher = some s → s ≠ "" →
      ((extractPatterns f).metadata.getD emptyMetadata).matcher = some s) ∧
    (∀ v : Int, m.timeout = some v → v ≠ 0 →
      ((extractPatterns f).metadata.getD emptyMetadata).timeout = some v) ∧
    (∀ s, m.actualValue = some s → s ≠ "" →
      ((extractPatterns f).metadata.getD emptyMetadata).actualValue = some s) ∧
    (∀ s, m.expectedValue = some s → s ≠ "" →
      ((extractPatterns f).metadata.getD emptyMetadata).expectedValue = some s) ∧
    (∀ s, m.runId = some s → s ≠ "" →
      ((extractPatterns f).metadata.getD emptyMetadata).runId = some s) := by
  refine ⟨?_, ?_, ?_, ?_, ?_, ?_, ?_, ?_⟩
  · intro v hv hv0
    have ht : intOptTruthy m.lineNumber = true := by simp [hv, intOptTruthy, hv0]
    have ht2 : intOptTruthy (some v) = true := by simp [intOptTruthy, hv0]
    simp [extractPatterns, hm, ht, ht2, jsOrInt_self, hv]
  · intro s hs hs0
    have ht : strOptTruthy m.errorSnippet = true := by simp [hs, strOptTruthy, hs0]
    have ht2 : strOptTruthy (some s) = true := by simp [strOptTruthy, hs0]
    simp [extractPatterns, hm, ht, ht2, jsOrStr_self, hs]
  · intro s hs hs0
    have ht : strOptTruthy m.locator = true := by simp [hs, strOptTruthy, hs0]
    have ht2 : strOptTruthy (some s) = true := by simp [strOptTruthy, hs0]
    simp [extractPatterns, hm, ht, ht2, jsOrStr_self, hs]
  · intro s hs hs0
    have ht : strOptTruthy m.matcher = true := by simp [hs, strOptTruthy, hs0]
    have ht2 : strOptTruthy (some s) = true := by simp [strOptTruthy, hs0]
    simp [extractPatterns, hm, ht, ht2, jsOrStr_self, hs]
  · intro v hv hv0
    have ht : intOptTruthy m.timeout = true := by simp [hv, intOptTruthy, hv0]
    have ht2 : intOptTruthy (some v) = true := by simp [intOptTruthy, hv0]
    simp [extractPatterns, hm, ht, ht2, jsOrInt_self, hv]
  · intro s hs hs0
    have ht : strOptTruthy m.actualValue = true := by simp [hs, strOptTruthy, hs0]
    have ht2 : strOptTruthy (some s) = true := by simp [strOptTruthy, hs0]
    simp [extractPatterns, hm, ht, ht2, jsOrStr_self, hs]
  · intro s hs hs0
    have ht : strOptTruthy m.expectedValue = true := by simp [hs, strOptTruthy, hs0]
    have ht2 : strOptTruthy (some s) = true := by simp [strOptTruthy, hs0]
    simp [extractPatterns, hm, ht, ht2, jsOrStr_self, hs]
  · intro s hs hs0
    have ht : strOptTruthy m.runId = true := by simp [hs, strOptTruthy, hs0]
    have ht2 : strOptTruthy (some s) = true := by simp [strOptTruthy, hs0]
    simp [extractPatterns, hm, ht, ht2, jsOrStr_self, hs]

/-- C3 witness: on a failure carrying truthy values in all eight
extractor-managed fields, every one of them survives extraction unchanged. -/
theorem extractPatterns_preserves_truthy_witness :
    ((extractPatterns richFailure).metadata.getD emptyMetadata).lineNumber = some 7 ∧
    ((extractPatterns richFailure).metadata.getD emptyMetadata).errorSnippet = some "snip" ∧
    ((extractPatterns richFailure).metadata.getD emptyMetadata).locator = some "loc" ∧
    ((extractPatterns richFailure).metadata.getD emptyMetadata).matcher = some "toBe" ∧
    ((extractPatterns richFailure).metadata.getD emptyMetadata).timeout = some 5000 ∧
    ((extractPatterns richFailure).metadata.getD emptyMetadata).actualValue = some "a" ∧
    ((extractPatterns richFailure).metadata.getD emptyMetadata).expectedValue = some "b" ∧
    ((extractPatterns richFailure).metadata.getD emptyMetadata).runId = some "42" := by
  have h := extractPatterns_preserves_truthy richFailure richMetadata rfl
  exact ⟨h.1 7 rfl (by decide), h.2.1 "snip" rfl (by decide), h.2.2.1 "loc" rfl (by decide),
    h.2.2.2.1 "toBe" rfl (by decide), h.2.2.2.2.1 5000 rfl (by decide),
    h.2.2.2.2.2.1 "a" rfl (by decide), h.2.2.2.2.2.2.1 "b" rfl (by decide),
    h.2.2.2.2.2.2.2 "42" rfl (by decide)⟩

/-- `scanFirst` returns the match at the first succeeding position. -/
theorem scanFirst_eq_some (f : List Char → Option α) (hnil : f [] = none) :
    ∀ (l : List Char) (i : Nat) (r : α), f (l.drop i) = some r →
      (∀ j, j < i → f (l.drop j) = none) → scanFirst f l = some r := by
  intro l
  induction l with
  | nil =>
    intro i r hi _
    rw [List.drop_nil, hnil] at hi
    cases hi
  | cons c rest ih =>
    intro i r hi hlt
    cases i with
    | zero =>
      rw [List.drop_zero] at hi
      rw [scanFirst, hi]
    | succ i' =>
      have h0 : f (c :: rest) = none := by simpa using hlt 0 (Nat.succ_pos i')
      rw [scanFirst, h0]
      exact ih i' r (by simpa using hi) fun j hj => by
        simpa using hlt (j + 1) (Nat.succ_lt_succ hj)

/-- A successful scan comes from a successful position. -/
theorem scanFirst_some_imp (f : List Char → Option α) :
    ∀ (l : List Char) (r : α), scanFirst f l = some r → ∃ l', f l' = some r := by
  intro l
  induction l with
  | nil =>
    intro r h
    rw [scanFirst] at h
    cases h
  | cons c rest ih =>
    intro r h
    rw [scanFirst] at h
    cases hf : f (c :: rest) with
    | some r' =>
      rw [hf] at h
      exact ⟨c :: rest, hf ▸ h⟩
    | none =>
      rw [hf] at h
      exact ih r h

/-- A position where `runsAt` holds gives `matchRunsHere` its digit run. -/
theorem matchRunsHere_of_runsAt {l : List Char} {i : Nat} (h : runsAt l i = true) :
    matchRunsHere (l.drop i) = some (digitsAt l i) := by
  rw [runsAt, Bool.and_eq_true] at h
  obtain ⟨hpre, hdig⟩ := h
  rw [matchRunsHere, if_pos hpre, List.drop_drop]
  cases hd : l.drop (i + 6) with
  | nil =>
    rw [hd] at hdig
    cases hdig
  | cons c rest =>
    rw [hd] at hdig
    have hdig' : c.isDigit = true := hdig
    rw [digitsAt, hd]
    simp [hdig', List.takeWhile_cons_of_pos]

/-- A position where `runsAt` fails gives `matchRunsHere` nothing. -/
theorem matchRunsHere_of_not_runsAt {l : List Char} {j : Nat} (h : runsAt l j = false) :
    matchRunsHere (l.drop j) = none := by
  rw [matchRunsHere]
  by_cases hpre : "/runs/".data.isPrefixOf (l.drop j) = true
  · rw [if_pos hpre, List.drop_drop]
    cases hd : l.drop (j + 6) with
    | nil => rfl
    | cons c rest =>
      rw [runsAt, hpre, hd] at h
      have h' : c.isDigit = false := by simpa using h
      simp [h']
  · rw [if_neg hpre]

/-- `extractRunId` never returns the empty string. -/
theorem extractRunId_ne_empty {s : String} {d : String} (h : extractRunId s = some d) :
    d ≠ "" := by
  rw [extractRunId] at h
  split at h
  · cases h
  · rw [Option.map_eq_some'] at h
    obtain ⟨ds, hds, rfl⟩ := h
    obtain ⟨l', hl'⟩ := scanFirst_some_imp matchRunsHere s.data ds hds
    rw [matchRunsHere] at hl'
    split at hl'
    · split at hl'
      · split at hl'
        · intro hc
          have := congrArg String.data hc
          simp at this
          cases hl'
          simp_all
        · cases hl'
      · cases hl'
    · cases hl'

/-- C9: run-id extraction.  First, for every report link carrying a substring
`/runs/<N>` (first occurrence at position `i`), `extractRunId` returns exactly
the digit run `N` of that first occurrence.  Second, on any failure whose
metadata has `reportLink` present and `runId` absent, `extractPatterns` sets
the output `runId` to that extracted value. -/
theorem extractRunId_law :
    (∀ (s : String) (i : Nat), runsAt s.data i = true →
      (∀ j, j < i → runsAt s.data j = false) →
      extractRunId s = some (String.mk (digitsAt s.data i))) ∧
    (∀ (f : TestFailure) (m : TestFailureMetadata) (s : String),
      f.metadata = some m → m.runId = none → m.reportLink = some s →
      ((extractPatterns f).metadata.getD emptyMetadata).runId = extractRunId s) := by
  constructor
  · intro s i hri hmin
    have hs : s ≠ "" := by
      intro h
      subst h
      have hfalse : runsAt ("" : String).data i = false := by
        have hd : ("" : String).data = [] := rfl
        rw [hd, runsAt, List.drop_nil, List.drop_nil]
        rfl
      rw [hfalse] at hri
      cases hri
    rw [extractRunId, if_neg hs]
    rw [scanFirst_eq_some matchRunsHere rfl s.data i (digitsAt s.data i)
      (matchRunsHere_of_runsAt hri)
      (fun j hj => matchRunsHere_of_not_runsAt (hmin j hj))]
    rfl
  · intro f m s hm hr hl
    by_cases hs : s = ""
    · subst hs
      simp [extractPatterns, hm, hl, hr, strOptTruthy, jsOrStr, extractRunId]
    · cases he : extractRunId s with
      | none =>
        simp [extractPatterns, hm, hr, hl, he, jsOrStr, strOptTruthy, hs]
      | some d =>
        have hd := extractRunId_ne_empty he
        simp [extractPatterns, hm, hr, hl, he, jsOrStr, strOptTruthy, hs, hd]

/-- C9 witness: a concrete report link `.../runs/999` whose first `/runs/`
occurrence is at position 9, and a concrete failure that gets its `runId`
enriched from the link. -/
theorem extractRunId_law_witness :
    extractRunId "https://x/runs/999" = some (String.mk (digitsAt "https://x/runs/999".data 9)) ∧
    ((extractPatterns runLinkFailure).metadata.getD emptyMetadata).runId =
      extractRunId "https://x/runs/999" := by
  constructor
  · exact extractRunId_law.1 "https://x/runs/999" 9 (by decide) (by decide)
  · exact extractRunId_law.2 runLinkFailure
      { reportLink := some "https://x/runs/999" } "https://x/runs/999" rfl rfl rfl

/-- The constructor-resolved batch size is always at least 1. -/
theorem resolvedMaxBatchSize_pos (config : GoogleGenAIConfig) :
    1 ≤ resolvedMaxBatchSize config := by
  rw [resolvedMaxBatchSize]
  cases config.maxBatchSize with
  | none => decide
  | some k =>
    cases k with
    | zero => decide
    | succ m => exact Nat.succ_le_succ (Nat.zero_le m)

/-- The batching worker splits without losing or reordering texts. -/
theorem createBatchesAux_flatten (bs : Nat) (hbs : 1 ≤ bs) :
    ∀ (fuel : Nat) (l : List α), l.length ≤ fuel →
      (createBatchesAux bs fuel l).flatten = l := by
  intro fuel
  induction fuel with
  | zero =>
    intro l hl
    cases l with
    | nil => rfl
    | cons x xs => simp at hl
  | succ n ih =>
    intro l hl
    cases l with
    | nil => rfl
    | cons x xs =>
      rw [createBatchesAux, List.flatten_cons]
      have hdrop : xs.drop (bs - 1) = (x :: xs).drop bs := by
        cases bs with
        | zero => omega
        | succ b => simp
      rw [ih (xs.drop (bs - 1)) (by simp only [List.length_drop]; simp at hl; omega)]
      rw [hdrop, List.take_append_drop]

/-- `createBatches` splits without losing or reordering texts. -/
theorem createBatches_flatten (bs : Nat) (hbs : 1 ≤ bs) (l : List α) :
    (createBatches bs l).flatten = l :=
  createBatchesAux_flatten bs hbs l.length l (Nat.le_refl _)

/-- `Promise.all` rejects exactly when some promise rejects. -/
theorem awaitAll_isErr (l : List (Except String α)) :
    isErr (awaitAll l) = true ↔ ∃ x ∈ l, isErr x = true := by
  induction l with
  | nil => simp [awaitAll, isErr]
  | cons x rest ih =>
    cases x with
    | error e => simp [awaitAll, isErr]
    | ok a =>
      rw [awaitAll]
      cases h : awaitAll rest with
      | error e =>
        obtain ⟨x, hx, hxe⟩ := ih.mp (by simp [h, isErr])
        constructor
        · intro _
          exact ⟨x, List.mem_cons_of_mem _ hx, hxe⟩
        · intro _
          simp [Except.map, isErr]
      | ok vs =>
        have hrest : ¬ ∃ x ∈ rest, isErr x = true := fun hex => by
          have hbad := ih.mpr hex
          rw [h] at hbad
          simp [isErr] at hbad
        constructor
        · intro hbad
          simp [Except.map, isErr] at hbad
        · rintro ⟨x, hx, hxe⟩
          rcases List.mem_cons.mp hx with rfl | hx'
          · simp [isErr] at hxe
          · exact absurd ⟨x, hx', hxe⟩ hrest

/-- `embedContent` fails exactly when the model call fails. -/
theorem embedContent_isErr (modelEmbed : String → Except String (List JSNum))
    (text : String) :
    isErr (embedContent modelEmbed text) = isErr (modelEmbed text) := by
  rw [embedContent]
  cases modelEmbed text <;> rfl

/-- If any text of any batch fails, the batch loop aborts with the
index-free batch error message. -/
theorem embedBatches_error (modelEmbed : String → Except String (List JSNum)) :
    ∀ batches : List (List String),
      (∃ t ∈ batches.flatten, isErr (modelEmbed t) = true) →
      ∃ e, embedBatches modelEmbed batches =
        Except.error ("Failed to generate embeddings for batch: " ++ jsErrorString e) := by
  intro batches
  induction batches with
  | nil =>
    rintro ⟨t, ht, -⟩
    simp at ht
  | cons b rest ih =>
    rintro ⟨t, ht, hterr⟩
    rw [List.flatten_cons, List.mem_append] at ht
    cases haw : awaitAll (b.map (embedContent modelEmbed)) with
    | error e =>
      rw [embedBatches, haw]
      exact ⟨e, rfl⟩
    | ok vs =>
      have hbok : ∀ t' ∈ b, ¬ isErr (modelEmbed t') = true := by
        intro t' ht' hbad
        have : isErr (awaitAll (b.map (embedContent modelEmbed))) = true := by
          rw [awaitAll_isErr]
          exact ⟨embedContent modelEmbed t', List.mem_map_of_mem _ ht', by
            rw [embedContent_isErr]; exact hbad⟩
        rw [haw] at this
        simp [isErr] at this
      cases ht with
      | inl h => exact absurd hterr (hbok t h)
      | inr h =>
        obtain ⟨e, he⟩ := ih ⟨t, h, hterr⟩
        rw [embedBatches, haw, he]
        exact ⟨e, rfl⟩

/-- C5 (amended): a model failure on any text aborts the whole
`generateEmbeddings` call with an error whose message is
`Failed to generate embeddings for batch: <stringified inner error>` — the
failing batch's index is not part of the thrown message (it reaches only the
logger) — and no partial embeddings are returned (the call yields an error,
not a list). -/
theorem generateEmbeddings_provider_error
    (modelEmbed : String → Except String (List JSNum)) (config : GoogleGenAIConfig)
    (texts : List String) (h : ∃ t ∈ texts, isErr (modelEmbed t) = true) :
    ∃ e, generateEmbeddings modelEmbed config texts =
      Except.error ("Failed to generate embeddings for batch: " ++ jsErrorString e) := by
  obtain ⟨t, ht, hterr⟩ := h
  have hne : texts.length ≠ 0 := by
    cases texts with
    | nil => simp at ht
    | cons a l => simp
  rw [generateEmbeddings, if_neg hne]
  apply embedBatches_error
  refine ⟨t, ?_, hterr⟩
  rw [createBatches_flatten (resolvedMaxBatchSize config) (resolvedMaxBatchSize_pos config)]
  exact ht

/-- C5 counterexample: a failure in the first batch and a failure in the
second batch raise errors with byte-identical messages containing no digit at
all, so the thrown message does not name the index of the failing batch. -/
theorem generateEmbeddings_error_lacks_batch_index :
    generateEmbeddings modelFailBatch0 batchTwoConfig threeTexts =
      Except.error
        "Failed to generate embeddings for batch: Error: Failed to embed content: Error: boom" ∧
    generateEmbeddings modelFailBatch1 batchTwoConfig threeTexts =
      Except.error
        "Failed to generate embeddings for batch: Error: Failed to embed content: Error: boom" ∧
    ("Failed to generate embeddings for batch: Error: Failed to embed content: Error: boom".data.all
      fun c => !c.isDigit) = true := by
  exact ⟨rfl, rfl, by decide⟩

/-- C5 witness: the amended abort theorem applied to the concrete failing
pass. -/
theorem generateEmbeddings_provider_error_witness :
    ∃ e, generateEmbeddings modelFailBatch1 batchTwoConfig threeTexts =
      Except.error ("Failed to generate embeddings for batch: " ++ jsErrorString e) := by
  exact generateEmbeddings_provider_error modelFailBatch1 batchTwoConfig threeTexts
    ⟨"b1", by decide, by decide⟩

/-- Every assembled cluster's `failureCount` is its member count. -/
theorem assembled_failureCount (run : List (List JSNum) → List (List Nat))
    (today : String) (embeddedFailures : List EmbeddedFailure)
    (options : ClusteringOptions) :
    ∀ c ∈ assembledClusters run today embeddedFailures options,
      c.metadata.failureCount = c.failures.length := by
  intro c hc
  simp only [assembledClusters, List.mem_map] at hc
  obtain ⟨p, hp, rfl⟩ := hc
  rfl

/-- The ranked list is sorted by member count, descending. -/
theorem rankedClusters_sorted (run : List (List JSNum) → List (List Nat))
    (today : String) (embeddedFailures : List EmbeddedFailure)
    (options : ClusteringOptions) :
    (rankedClusters run today embeddedFailures options).Pairwise
      (fun a b => b.failures.length ≤ a.failures.length) := by
  rw [rankedClusters]
  letI : IsTotal FailureCluster (fun a b => b.failures.length ≤ a.failures.length) :=
    ⟨fun a b => Nat.le_total b.failures.length a.failures.length⟩
  letI : IsTrans FailureCluster (fun a b => b.failures.length ≤ a.failures.length) :=
    ⟨fun _ _ _ hab hbc => Nat.le_trans hbc hab⟩
  exact List.sorted_insertionSort _ _

/-- The returned cluster list is a sublist of the ranked list. -/
theorem clusterFailures_sublist_ranked (run : List (List JSNum) → List (List Nat))
    (today : String) (embeddedFailures : List EmbeddedFailure)
    (options : ClusteringOptions) :
    List.Sublist (clusterFailures run today embeddedFailures options)
      (rankedClusters run today embeddedFailures options) := by
  rw [clusterFailures]
  split
  · exact List.nil_sublist _
  · rw [jsSlice]
    split
    · exact List.take_sublist _ _
    · exact List.take_sublist _ _

/-- Every emitted cluster is an assembled cluster. -/
theorem mem_assembled_of_mem_clusterFailures {run : List (List JSNum) → List (List Nat)}
    {today : String} {embeddedFailures : List EmbeddedFailure}
    {options : ClusteringOptions} {c : FailureCluster}
    (hc : c ∈ clusterFailures run today embeddedFailures options) :
    c ∈ assembledClusters run today embeddedFailures options := by
  have h1 : c ∈ rankedClusters run today embeddedFailures options :=
    (clusterFailures_sublist_ranked run today embeddedFailures options).subset hc
  rw [rankedClusters] at h1
  exact (List.mem_insertionSort _).mp h1

/-- C4 (amended): the returned cluster list is sorted by
`metadata.failureCount` descending; clusters with equal `failureCount` appear
in their assembly (discovery) order — stability of the sort — not in ascending
order of their id strings, which differs once the index reaches two digits
(see the counterexample). -/
theorem clusterFailures_sorted (run : List (List JSNum) → List (List Nat))
    (today : String) (embeddedFailures : List EmbeddedFailure)
    (options : ClusteringOptions) :
    (clusterFailures run today embeddedFailures options).Pairwise
      (fun a b => b.metadata.failureCount ≤ a.metadata.failureCount) ∧
    (∀ a b, List.Sublist [a, b] (assembledClusters run today embeddedFailures options) →
      a.metadata.failureCount = b.metadata.failureCount →
      List.Sublist [a, b] (rankedClusters run today embeddedFailures options)) := by
  constructor
  · have hp := (rankedClusters_sorted run today embeddedFailures options).sublist
      (clusterFailures_sublist_ranked run today embeddedFailures options)
    refine List.Pairwise.imp_of_mem ?_ hp
    intro a b ha hb hR
    have ha' := assembled_failureCount run today embeddedFailures options a
      (mem_assembled_of_mem_clusterFailures ha)
    have hb' := assembled_failureCount run today embeddedFailures options b
      (mem_assembled_of_mem_clusterFailures hb)
    rw [ha', hb']
    exact hR
  · intro a b hab hcount
    have ha : a ∈ assembledClusters run today embeddedFailures options :=
      hab.subset (by simp)
    have hb : b ∈ assembledClusters run today embeddedFailures options :=
      hab.subset (by simp)
    have hlen : b.failures.length ≤ a.failures.length := by
      rw [← assembled_failureCount run today embeddedFailures options a ha,
        ← assembled_failureCount run today embeddedFailures options b hb, hcount]
    rw [rankedClusters]
    letI : IsTotal FailureCluster (fun a b => b.failures.length ≤ a.failures.length) :=
      ⟨fun a b => Nat.le_total b.failures.length a.failures.length⟩
    letI : IsTrans FailureCluster (fun a b => b.failures.length ≤ a.failures.length) :=
      ⟨fun _ _ _ hab hbc => Nat.le_trans hbc hab⟩
    exact List.pair_sublist_insertionSort hlen hab

/-- C4 witness: the amended theorem at a concrete two-cluster pass. -/
theorem clusterFailures_sorted_witness :
    List.Sublist
      [(assembledClusters sixSingletonRun "2025-01-01" sixFailures optsUnsetMax).getD 0
          junkCluster,
        (assembledClusters sixSingletonRun "2025-01-01" sixFailures optsUnsetMax).getD 1
          junkCluster]
      (rankedClusters sixSingletonRun "2025-01-01" sixFailures optsUnsetMax) := by
  refine (clusterFailures_sorted sixSingletonRun "2025-01-01" sixFailures optsUnsetMax).2
    _ _ ?_ (by decide)
  have h6 : (assembledClusters sixSingletonRun "2025-01-01" sixFailures optsUnsetMax).length
      = 6 := by decide
  have := List.take_sublist 2 (assembledClusters sixSingletonRun "2025-01-01" sixFailures
    optsUnsetMax)
  refine List.Sublist.trans ?_ this
  have htake : (assembledClusters sixSingletonRun "2025-01-01" sixFailures optsUnsetMax).take 2
      = [(assembledClusters sixSingletonRun "2025-01-01" sixFailures optsUnsetMax).getD 0
          junkCluster,
        (assembledClusters sixSingletonRun "2025-01-01" sixFailures optsUnsetMax).getD 1
          junkCluster] := by decide
  rw [htake]

/-- C4 counterexample: with eleven surviving singleton clusters
(`maxClusters = 11`), positions 9 and 10 of the returned list hold clusters of
equal `failureCount` whose ids `2025-01-01-9` and `2025-01-01-10` are in
descending string order, refuting the claimed ascending-id tie-break. -/
theorem clusterFailures_ties_not_id_sorted :
    ((clusterFailures elevenSingletonRun "2025-01-01" elevenFailures optsElevenMax).getD 9
          junkCluster).metadata.failureCount =
        ((clusterFailures elevenSingletonRun "2025-01-01" elevenFailures optsElevenMax).getD 10
          junkCluster).metadata.failureCount ∧
      ((clusterFailures elevenSingletonRun "2025-01-01" elevenFailures optsElevenMax).getD 9
          junkCluster).id = "2025-01-01-9" ∧
      ((clusterFailures elevenSingletonRun "2025-01-01" elevenFailures optsElevenMax).getD 10
          junkCluster).id = "2025-01-01-10" ∧
      strLexLt
        ((clusterFailures elevenSingletonRun "2025-01-01" elevenFailures optsElevenMax).getD 10
          junkCluster).id.data
        ((clusterFailures elevenSingletonRun "2025-01-01" elevenFailures optsElevenMax).getD 9
          junkCluster).id.data = true := by
  refine ⟨by decide, by decide, by decide, by decide⟩

/-- Counting in a `map` image equals counting preimages. -/
theorem count_map_eq_length_filter [DecidableEq α] (f : β → α) (v : α) :
    ∀ l : List β, (l.map f).count v = (l.filter fun x => f x = v).length := by
  intro l
  induction l with
  | nil => simp
  | cons x xs ih =>
    rw [List.map_cons]
    by_cases hx : f x = v
    · rw [hx, List.count_cons_self, List.filter_cons_of_pos (by simp [hx]), ih]
      simp
    · rw [List.count_cons_of_ne (fun h => hx h.symm),
        List.filter_cons_of_neg (by simp [hx]), ih]

/-- A value surviving the threshold filter over a `filterMap` tally is carried
by at least that many members. -/
theorem commonValues_filterMap_count [DecidableEq α] {ms : List EmbeddedFailure}
    {proj : EmbeddedFailure → Option α} {t : Nat} {v : α}
    (hv : v ∈ commonValues (ms.filterMap proj) t) :
    t ≤ (ms.filter fun f => proj f = some v).length := by
  obtain ⟨hmem, hcount⟩ := commonValues_spec hv
  calc t ≤ (ms.filterMap proj).count v := hcount
    _ = _ := count_filterMap_eq_length_filter proj v ms

/-- A value surviving the threshold filter over a `map` tally is carried by at
least that many members. -/
theorem commonValues_map_count [DecidableEq α] {ms : List EmbeddedFailure}
    {f : EmbeddedFailure → α} {t : Nat} {v : α}
    (hv : v ∈ commonValues (ms.map f) t) :
    t ≤ (ms.filter fun x => f x = v).length := by
  obtain ⟨hmem, hcount⟩ := commonValues_spec hv
  calc t ≤ (ms.map f).count v := hcount
    _ = _ := count_map_eq_length_filter f v ms

/-- For a non-empty value, filtering on the truthiness-guarded projection and
on the raw projection agree. -/
theorem filter_truthy_eq {ms : List EmbeddedFailure}
    {g : EmbeddedFailure → Option String} {v : String} (hne : v ≠ "") :
    (ms.filter fun f => truthyStr (g f) = some v) =
      (ms.filter fun f => g f = some v) := by
  apply List.filter_congr
  intro f _
  exact decide_eq_decide.mpr (truthyStr_eq_some_iff hne)

/-- A value in a truthiness-guarded tally is non-empty. -/
theorem mem_truthy_vals_ne_empty {ms : List EmbeddedFailure}
    {g : EmbeddedFailure → Option String} {v : String}
    (hv : v ∈ ms.filterMap fun f => truthyStr (g f)) : v ≠ "" := by
  obtain ⟨f, -, heq⟩ := List.mem_filterMap.mp hv
  exact truthyStr_ne_empty heq

/-- C6: in every emitted cluster, every value appearing in any of the six
`commonPatterns` lists is carried by at least `⌈0.5 · |failures|⌉` of the
cluster's members. -/
theorem clusterFailures_commonPatterns_frequency
    (run : List (List JSNum) → List (List Nat)) (today : String)
    (embeddedFailures : List EmbeddedFailure) (options : ClusteringOptions)
    (c : FailureCluster) (hc : c ∈ clusterFailures run today embeddedFailures options) :
    (∀ v ∈ c.commonPatterns.filePaths,
      frequencyThreshold c.failures.length ≤
        (c.failures.filter fun f => f.testFilePath = v).length) ∧
    (∀ v ∈ c.commonPatterns.lineNumbers,
      frequencyThreshold c.failures.length ≤
        (c.failures.filter fun f => f.metadata.bind (·.lineNumber) = some v).length) ∧
    (∀ v ∈ c.commonPatterns.codeSnippets,
      frequencyThreshold c.failures.length ≤
        (c.failures.filter fun f => f.metadata.bind (·.errorSnippet) = some v).length) ∧
    (∀ v ∈ c.commonPatterns.locators,
      frequencyThreshold c.failures.length ≤
        (c.failures.filter fun f => f.metadata.bind (·.locator) = some v).length) ∧
    (∀ v ∈ c.commonPatterns.matchers,
      frequencyThreshold c.failures.length ≤
        (c.failures.filter fun f => f.metadata.bind (·.matcher) = some v).length) ∧
    (∀ v ∈ c.commonPatterns.timeouts,
      frequencyThreshold c.failures.length ≤
        (c.failures.filter fun f => f.metadata.bind (·.timeout) = some v).length) := by
  have hmem := mem_assembled_of_mem_clusterFailures hc
  simp only [assembledClusters, List.mem_map] at hmem
  obtain ⟨p, hp, rfl⟩ := hmem
  refine ⟨?_, ?_, ?_, ?_, ?_, ?_⟩
  · intro v hv
    exact commonValues_map_count hv
  · intro v hv
    exact commonValues_filterMap_count hv
  · intro v hv
    have hne : v ≠ "" := mem_truthy_vals_ne_empty (commonValues_spec hv).1
    have h := commonValues_filterMap_count hv
    rwa [filter_truthy_eq hne] at h
  · intro v hv
    have hne : v ≠ "" := mem_truthy_vals_ne_empty (commonValues_spec hv).1
    have h := commonValues_filterMap_count hv
    rwa [filter_truthy_eq hne] at h
  · intro v hv
    have hne : v ≠ "" := mem_truthy_vals_ne_empty (commonValues_spec hv).1
    have h := commonValues_filterMap_count hv
    rwa [filter_truthy_eq hne] at h
  · intro v hv
    exact commonValues_filterMap_count hv

/-- C6 witness: the frequency bound at a concrete emitted cluster and common
locator. -/
theorem clusterFailures_commonPatterns_frequency_witness :
    frequencyThreshold ((clusterFailures pairRun "2025-01-01" pairFailures
        optsPair).getD 0 junkCluster).failures.length ≤
      (((clusterFailures pairRun "2025-01-01" pairFailures optsPair).getD 0
        junkCluster).failures.filter fun f =>
          f.metadata.bind (·.locator) = some "button.login").length := by
  have hlen : 0 < (clusterFailures pairRun "2025-01-01" pairFailures optsPair).length := by
    decide
  have h := clusterFailures_commonPatterns_frequency pairRun "2025-01-01" pairFailures
    optsPair ((clusterFailures pairRun "2025-01-01" pairFailures optsPair).getD 0 junkCluster)
    (@getD_mem FailureCluster (clusterFailures pairRun "2025-01-01" pairFailures optsPair) 0
      junkCluster hlen)
  exact h.2.2.2.1 "button.login" (by decide)

/-- The head of a `≤`-sorted list of instants is a lower bound. -/
theorem pairwise_head_le {l : List Int} (h : l.Pairwise (· ≤ ·)) {a : Int}
    (ha : l.head? = some a) : ∀ x ∈ l, a ≤ x := by
  cases l with
  | nil => cases ha
  | cons b rest =>
    have hab : b = a := by simpa using ha
    subst hab
    intro x hx
    rcases List.mem_cons.mp hx with rfl | hx'
    · exact le_refl x
    · exact List.rel_of_pairwise_cons h hx'

/-- The last element of a `≤`-sorted list of instants is an upper bound. -/
theorem pairwise_le_getLast : ∀ {l : List Int}, l.Pairwise (· ≤ ·) →
    ∀ {a : Int}, l.getLast? = some a → ∀ x ∈ l, x ≤ a := by
  intro l
  induction l with
  | nil =>
    intro _ a ha
    cases ha
  | cons b rest ih =>
    intro h a ha x hx
    cases rest with
    | nil =>
      have hab : b = a := by simpa using ha
      have hxb : x = b := by simpa using hx
      rw [hxb, hab]
    | cons c rest' =>
      rw [List.getLast?_cons_cons] at ha
      rcases List.mem_cons.mp hx with rfl | hx'
      · exact List.rel_of_pairwise_cons h (List.mem_of_getLast?_eq_some ha)
      · exact ih (List.Pairwise.of_cons h) ha x hx'

/-- Telescoping: the consecutive deltas of a non-empty list sum to last minus
first. -/
theorem consecDeltas_sum : ∀ (a : Int) (l : List Int),
    (consecDeltas (a :: l)).sum = (a :: l).getLast?.getD 0 - a := by
  intro a l
  induction l generalizing a with
  | nil => simp [consecDeltas]
  | cons b l' ih =>
    have hstep : consecDeltas (a :: b :: l') = (b - a) :: consecDeltas (b :: l') := by
      simp [consecDeltas]
    rw [hstep, List.sum_cons, ih b, List.getLast?_cons_cons]
    omega

/-- The temporal facts of `createFailureCluster` for a non-empty member list:
`firstSeen`/`lastSeen` are the minimum/maximum member timestamps, and the
average is present exactly for two or more members, is non-negative, and is
the mean of the consecutive deltas of any ascending sort of the member
timestamps. -/
theorem createFailureCluster_temporal (ms : List EmbeddedFailure) (cid : String)
    (hne : ms ≠ []) :
    (createFailureCluster ms cid).metadata.firstSeen ∈ ms.map (·.timestamp) ∧
    (∀ t ∈ ms.map (·.timestamp), (createFailureCluster ms cid).metadata.firstSeen ≤ t) ∧
    (createFailureCluster ms cid).metadata.lastSeen ∈ ms.map (·.timestamp) ∧
    (∀ t ∈ ms.map (·.timestamp), t ≤ (createFailureCluster ms cid).metadata.lastSeen) ∧
    ((createFailureCluster ms cid).metadata.averageTimeBetweenFailures.isSome = true ↔
      2 ≤ ms.length) ∧
    (∀ a, (createFailureCluster ms cid).metadata.averageTimeBetweenFailures = some a →
      0 ≤ a ∧ ∀ l, (ms.map (·.timestamp)).Perm l → l.Pairwise (· ≤ ·) →
        a = meanDeltas l) := by
  letI : IsTotal EmbeddedFailure (fun a b => a.timestamp ≤ b.timestamp) :=
    ⟨fun a b => Int.le_total a.timestamp b.timestamp⟩
  letI : IsTrans EmbeddedFailure (fun a b => a.timestamp ≤ b.timestamp) :=
    ⟨fun _ _ _ hab hbc => Int.le_trans hab hbc⟩
  have hperm : (List.insertionSort (fun a b : EmbeddedFailure =>
      a.timestamp ≤ b.timestamp) ms).Perm ms := List.perm_insertionSort _ ms
  have hsorted : (List.insertionSort (fun a b : EmbeddedFailure =>
      a.timestamp ≤ b.timestamp) ms).Pairwise (fun a b => a.timestamp ≤ b.timestamp) :=
    List.sorted_insertionSort _ ms
  have hTs : ((List.insertionSort (fun a b : EmbeddedFailure =>
      a.timestamp ≤ b.timestamp) ms).map (·.timestamp)).Pairwise (· ≤ ·) :=
    List.Pairwise.map _ (fun _ _ h => h) hsorted
  have hTsPerm : ((List.insertionSort (fun a b : EmbeddedFailure =>
      a.timestamp ≤ b.timestamp) ms).map (·.timestamp)).Perm (ms.map (·.timestamp)) :=
    hperm.map _
  have hsne : List.insertionSort (fun a b : EmbeddedFailure =>
      a.timestamp ≤ b.timestamp) ms ≠ [] := by
    intro h
    apply hne
    have := hperm.length_eq
    rw [h] at this
    exact List.length_eq_zero.mp this.symm
  obtain ⟨s0, stail, hcons⟩ := List.exists_cons_of_ne_nil hsne
  have hfs : (createFailureCluster ms cid).metadata.firstSeen =
      (((List.insertionSort (fun a b : EmbeddedFailure => a.timestamp ≤ b.timestamp)
        ms).head?).map (·.timestamp)).getD 0 := rfl
  have hls : (createFailureCluster ms cid).metadata.lastSeen =
      (((List.insertionSort (fun a b : EmbeddedFailure => a.timestamp ≤ b.timestamp)
        ms).getLast?).map (·.timestamp)).getD 0 := rfl
  have hfs' : (createFailureCluster ms cid).metadata.firstSeen = s0.timestamp := by
    rw [hfs, hcons]
    rfl
  have hHead : ((List.insertionSort (fun a b : EmbeddedFailure =>
      a.timestamp ≤ b.timestamp) ms).map (·.timestamp)).head? = some s0.timestamp := by
    rw [hcons]
    rfl
  obtain ⟨z, hz⟩ : ∃ z, (List.insertionSort (fun a b : EmbeddedFailure =>
      a.timestamp ≤ b.timestamp) ms).getLast? = some z := by
    rw [hcons]
    cases hzz : (s0 :: stail).getLast? with
    | none => simp at hzz
    | some z => exact ⟨z, rfl⟩
  have hls' : (createFailureCluster ms cid).metadata.lastSeen = z.timestamp := by
    rw [hls, hz]
    rfl
  have hLast : ((List.insertionSort (fun a b : EmbeddedFailure =>
      a.timestamp ≤ b.timestamp) ms).map (·.timestamp)).getLast? = some z.timestamp := by
    rw [List.getLast?_map, hz]
    rfl
  have hfsMem : (createFailureCluster ms cid).metadata.firstSeen ∈ ms.map (·.timestamp) := by
    rw [hfs']
    exact hTsPerm.mem_iff.mp (by
      rw [hcons]
      exact List.mem_cons_self _ _)
  have hfsMin : ∀ t ∈ ms.map (·.timestamp),
      (createFailureCluster ms cid).metadata.firstSeen ≤ t := by
    intro t ht
    rw [hfs']
    exact pairwise_head_le hTs hHead t (hTsPerm.mem_iff.mpr ht)
  have hlsMem : (createFailureCluster ms cid).metadata.lastSeen ∈ ms.map (·.timestamp) := by
    rw [hls']
    exact hTsPerm.mem_iff.mp (List.mem_map_of_mem _ (List.mem_of_getLast?_eq_some hz))
  have hlsMax : ∀ t ∈ ms.map (·.timestamp),
      t ≤ (createFailureCluster ms cid).metadata.lastSeen := by
    intro t ht
    rw [hls']
    exact pairwise_le_getLast hTs hLast t (hTsPerm.mem_iff.mpr ht)
  have havg : (createFailureCluster ms cid).metadata.averageTimeBetweenFailures =
      (if 1 < ms.length then
        some ((((consecDeltas ((List.insertionSort (fun a b : EmbeddedFailure =>
            a.timestamp ≤ b.timestamp) ms).map (·.timestamp))).sum : Int) : Rat) /
          ((((List.insertionSort (fun a b : EmbeddedFailure =>
            a.timestamp ≤ b.timestamp) ms).length : Int) - 1 : Int) : Rat))
      else none) := rfl
  refine ⟨hfsMem, hfsMin, hlsMem, hlsMax, ?_, ?_⟩
  · rw [havg]
    split
    · rename_i hlen
      constructor
      · intro _
        omega
      · intro _
        rfl
    · rename_i hlen
      constructor
      · intro hbad
        simp at hbad
      · intro h2
        exact absurd h2 (by omega)
  · intro a ha
    rw [havg] at ha
    split at ha
    · rename_i hlen
      have ha' := (Option.some.injEq _ _).mp ha
      have hsum : (consecDeltas ((List.insertionSort (fun a b : EmbeddedFailure =>
          a.timestamp ≤ b.timestamp) ms).map (·.timestamp))).sum =
          z.timestamp - s0.timestamp := by
        have hmapcons : (List.insertionSort (fun a b : EmbeddedFailure =>
            a.timestamp ≤ b.timestamp) ms).map (·.timestamp) =
            s0.timestamp :: stail.map (·.timestamp) := by
          rw [hcons]
          rfl
        rw [hmapcons]
        rw [consecDeltas_sum]
        rw [← hmapcons, hLast]
        rfl
      have hzs : s0.timestamp ≤ z.timestamp := by
        have := pairwise_le_getLast hTs hLast s0.timestamp (by
          rw [hcons]
          exact List.mem_cons_self _ _)
        exact this
      constructor
      · rw [← ha']
        apply div_nonneg
        · rw [hsum]
          have : (0 : Int) ≤ z.timestamp - s0.timestamp := by omega
          exact_mod_cast this
        · have hlen' : (1 : Int) ≤ ((List.insertionSort (fun a b : EmbeddedFailure =>
              a.timestamp ≤ b.timestamp) ms).length : Int) := by
            rw [List.length_insertionSort]
            exact_mod_cast Nat.one_le_iff_ne_zero.mpr (by
              intro h0
              exact hne (List.length_eq_zero.mp h0))
          have : (0 : Int) ≤ ((List.insertionSort (fun a b : EmbeddedFailure =>
              a.timestamp ≤ b.timestamp) ms).length : Int) - 1 := by omega
          exact_mod_cast this
      · intro l hlperm hlsorted
        have hleq : (List.insertionSort (fun a b : EmbeddedFailure =>
            a.timestamp ≤ b.timestamp) ms).map (·.timestamp) = l := by
          apply List.eq_of_perm_of_sorted (hTsPerm.trans hlperm) hTs hlsorted
        rw [← hleq, ← ha', meanDeltas]
        rw [List.length_map]
    · cases ha

/-- C7: in every emitted cluster of a validated pass (`minClusterSize ≥ 1`),
`firstSeen` and `lastSeen` are the minimum and maximum member timestamps
(hence `firstSeen ≤ lastSeen`); `averageTimeBetweenFailures` is present
exactly when the cluster has at least two members (absent for a single
member), is non-negative, and equals the mean of the consecutive deltas of
the member timestamps sorted ascending. -/
theorem clusterFailures_temporal (run : List (List JSNum) → List (List Nat))
    (today : String) (embeddedFailures : List EmbeddedFailure)
    (options : ClusteringOptions) (hmin : 1 ≤ options.minClusterSize)
    (c : FailureCluster) (hc : c ∈ clusterFailures run today embeddedFailures options) :
    c.metadata.firstSeen ∈ c.failures.map (·.timestamp) ∧
    (∀ t ∈ c.failures.map (·.timestamp), c.metadata.firstSeen ≤ t) ∧
    c.metadata.lastSeen ∈ c.failures.map (·.timestamp) ∧
    (∀ t ∈ c.failures.map (·.timestamp), t ≤ c.metadata.lastSeen) ∧
    c.metadata.firstSeen ≤ c.metadata.lastSeen ∧
    (c.metadata.averageTimeBetweenFailures.isSome = true ↔ 2 ≤ c.failures.length) ∧
    (c.failures.length = 1 → c.metadata.averageTimeBetweenFailures = none) ∧
    (∀ a, c.metadata.averageTimeBetweenFailures = some a →
      0 ≤ a ∧ ∀ l, (c.failures.map (·.timestamp)).Perm l → l.Pairwise (· ≤ ·) →
        a = meanDeltas l) := by
  have hmem := mem_assembled_of_mem_clusterFailures hc
  simp only [assembledClusters, List.mem_map] at hmem
  obtain ⟨p, hp, rfl⟩ := hmem
  have hp2 : p.2 ∈ survivingIndexSets (run (embeddedFailures.map (·.embedding))) options := by
    have := List.mem_map_of_mem Prod.snd hp
    simpa using this
  have hlen : 1 ≤ p.2.length := by
    have hfilter := List.mem_filter.mp hp2
    have hle : options.minClusterSize ≤ (p.2.length : Int) := by
      have h2 := hfilter.2
      simp only [decide_eq_true_eq] at h2
      exact h2
    omega
  have hne : p.2.map (fun i => (embeddedFailures.get? i).getD junkFailure) ≠ [] := by
    intro h
    have hlen0 := congrArg List.length h
    rw [List.length_map] at hlen0
    simp only [List.length_nil] at hlen0
    omega
  have H := createFailureCluster_temporal
    (p.2.map fun i => (embeddedFailures.get? i).getD junkFailure)
    (generateClusterId today p.1) hne
  obtain ⟨h1, h2, h3, h4, h5, h6⟩ := H
  refine ⟨h1, h2, h3, h4, h2 _ h3, h5, ?_, h6⟩
  intro hone
  have : ¬ ((createFailureCluster (p.2.map fun i =>
      (embeddedFailures.get? i).getD junkFailure)
      (generateClusterId today p.1)).metadata.averageTimeBetweenFailures.isSome = true) := by
    rw [h5]
    have hlen1 : (p.2.map fun i => (embeddedFailures.get? i).getD junkFailure).length = 1 :=
      hone
    omega
  exact Option.not_isSome_iff_eq_none.mp this

/-- C7 witness: the temporal facts at a concrete two-member cluster. -/
theorem clusterFailures_temporal_witness :
    ((clusterFailures pairRun "2025-01-01" pairFailures optsPair).getD 0
        junkCluster).metadata.firstSeen ≤
      ((clusterFailures pairRun "2025-01-01" pairFailures optsPair).getD 0
        junkCluster).metadata.lastSeen ∧
    ((clusterFailures pairRun "2025-01-01" pairFailures optsPair).getD 0
        junkCluster).metadata.averageTimeBetweenFailures.isSome = true := by
  have hlen : 0 < (clusterFailures pairRun "2025-01-01" pairFailures optsPair).length := by
    decide
  have h := clusterFailures_temporal pairRun "2025-01-01" pairFailures optsPair
    (by decide)
    ((clusterFailures pairRun "2025-01-01" pairFailures optsPair).getD 0 junkCluster)
    (@getD_mem FailureCluster (clusterFailures pairRun "2025-01-01" pairFailures optsPair) 0
      junkCluster hlen)
  refine ⟨h.2.2.2.2.1, h.2.2.2.2.2.1.mpr (by decide)⟩

end FlakyDetective
